import Mathlib

/-!
ArduML anomaly-detection engine: shallow embedding and verification.

This file embeds the anomaly-detection core of the ArduML repository in Lean 4
and proves (or refutes) the specification claims about it.

The embedded sources are:
* the batch anomaly API route (`calculateStats`, `detectZScoreAnomalies`,
  `detectRateAnomalies` and the `GET` pipeline) — namespace `anomaliesRoute`;
* `src/lib/anomalyDetector.ts` (`calculateStats`, `refreshStatsCache`,
  `checkRealtimeAnomaly`, `logAnomalies`) — namespace `anomalyDetector`;
* `src/app/api/cron/route.ts` (the inline z-score scan of `GET`) —
  namespace `cronRoute`.

Numeric values are modelled as real numbers; JavaScript `null` becomes
`Option`.  Human-readable `message` strings are not modelled (no claim
mentions them).  `Math.round(x*100)/100` (round-half-up) is `round2` below;
Lean's `round` is `⌊x + 1/2⌋`, which matches JavaScript's `Math.round` on
all inputs including negative halves.
-/

namespace ArduML

inductive Metric
  | temperature
  | humidity
deriving DecidableEq

inductive Severity
  | low
  | medium
  | high
deriving DecidableEq

inductive DetectionMethod
  | zscore
  | rate_of_change
  | combined
  | realtime
  | cron_batch
deriving DecidableEq

/-- One row of `sensor_readings` as selected by the detection code:
`id, temperature, humidity, created_at`.  Timestamps are modelled as
integers (orderable points in time). -/
structure SensorReading where
  id : ℤ
  temperature : Option ℝ
  humidity : Option ℝ
  created_at : ℤ

/-- Access `reading[metric]` — the per-metric field access used by both detectors. -/
def SensorReading.metricValue (r : SensorReading) : Metric → Option ℝ
  | Metric.temperature => r.temperature
  | Metric.humidity => r.humidity

/-- An anomaly record (the `message` string field of the source is not
modelled). -/
structure Anomaly where
  id : ℤ
  timestamp : ℤ
  metric : Metric
  value : ℝ
  expectedRange : ℝ × ℝ
  deviation : ℝ
  detectionMethod : DetectionMethod
  severity : Severity

-- Threshold constants shared by all three source files.
def ZSCORE_THRESHOLD : ℝ := 3
def TEMP_RATE_THRESHOLD : ℝ := 2
def HUMIDITY_RATE_THRESHOLD : ℝ := 5
noncomputable def MIN_STD_TEMP : ℝ := 0.5
def MIN_STD_HUMIDITY : ℝ := 2

/-- Rounding `Math.round(x * 100) / 100` — round to two decimals, half up. -/
noncomputable def round2 (x : ℝ) : ℝ := (round (x * 100) : ℤ) / 100

namespace anomaliesRoute

/-- The `Stats` interface of the batch route (with quartiles). -/
structure Stats where
  mean : ℝ
  std : ℝ
  min : ℝ
  max : ℝ
  q1 : ℝ
  q3 : ℝ

/-- The `calculateStats` of the batch route: population mean/std, min/max and
quartiles read off the ascending sort.  `Math.floor(n*0.25)` and
`Math.floor(n*0.75)` are `n/4` and `n*3/4` in natural division. -/
noncomputable def calculateStats (values : List ℝ) : Stats :=
  if values.length = 0 then ⟨0, 0, 0, 0, 0, 0⟩
  else
    let sorted := values.insertionSort (· ≤ ·)
    let mean : ℝ := values.sum / values.length
    let variance : ℝ := (values.map (fun val => (val - mean) ^ 2)).sum / values.length
    let std := Real.sqrt variance
    { mean := mean
      std := std
      min := sorted.getD 0 0
      max := sorted.getD (sorted.length - 1) 0
      q1 := sorted.getD (sorted.length / 4) 0
      q3 := sorted.getD (sorted.length * 3 / 4) 0 }

/-- Body of the `for` loop of `detectZScoreAnomalies`: one reading checked
against fixed window statistics (no effective-std floor in this path). -/
noncomputable def zscoreBody (stats : Stats) (metric : Metric)
    (reading : SensorReading) : Option Anomaly :=
  match reading.metricValue metric with
  | none => none
  | some value =>
    let zscore := |value - stats.mean| / stats.std
    if zscore > ZSCORE_THRESHOLD then
      some { id := reading.id
             timestamp := reading.created_at
             metric := metric
             value := value
             expectedRange :=
               (round2 (stats.mean - 2 * stats.std), round2 (stats.mean + 2 * stats.std))
             deviation := round2 zscore
             detectionMethod := DetectionMethod.zscore
             severity :=
               if zscore > 4 then Severity.high
               else if zscore > 3.5 then Severity.medium
               else Severity.low }
    else none

/-- The detector `detectZScoreAnomalies`: filter non-null values, abstain below 10 samples
or at zero standard deviation, else scan every reading. -/
noncomputable def detectZScoreAnomalies (data : List SensorReading)
    (metric : Metric) : List Anomaly :=
  let values := data.filterMap (fun r => r.metricValue metric)
  if values.length < 10 then []
  else
    let stats := calculateStats values
    if stats.std = 0 then []
    else data.filterMap (zscoreBody stats metric)

/-- Body of the rate-of-change comparison for one adjacent pair of present
values (`prevValue`, `value`). -/
noncomputable def rateBody (metric : Metric) (threshold : ℝ) (prevValue : ℝ)
    (reading : SensorReading) (value : ℝ) : Option Anomaly :=
  let change := |value - prevValue|
  if change > threshold then
    some { id := reading.id
           timestamp := reading.created_at
           metric := metric
           value := value
           expectedRange := (round2 (prevValue - threshold), round2 (prevValue + threshold))
           deviation := round2 change
           detectionMethod := DetectionMethod.rate_of_change
           severity :=
             if change > threshold * 2 then Severity.high
             else if change > threshold * 1.5 then Severity.medium
             else Severity.low }
  else none

/-- The `for` loop of `detectRateAnomalies` with its `prevValue` state:
null values are skipped and do not update `prevValue`. -/
noncomputable def rateLoop (metric : Metric) (threshold : ℝ)
    (prevValue : Option ℝ) : List SensorReading → List Anomaly
  | [] => []
  | reading :: rest =>
    match reading.metricValue metric with
    | none => rateLoop metric threshold prevValue rest
    | some value =>
      match prevValue with
      | none => rateLoop metric threshold (some value) rest
      | some prev =>
        (rateBody metric threshold prev reading value).toList ++
          rateLoop metric threshold (some value) rest

/-- The detector `detectRateAnomalies` with the per-metric threshold. -/
noncomputable def detectRateAnomalies (data : List SensorReading)
    (metric : Metric) : List Anomaly :=
  rateLoop metric
    (if metric = Metric.temperature then TEMP_RATE_THRESHOLD else HUMIDITY_RATE_THRESHOLD)
    none data

/-- The first deduplication key of the `GET` pipeline:
the string `` `${a.id}-${a.detectionMethod}` `` (injective on its parts,
modelled as a pair). -/
def dedupKey (a : Anomaly) : ℤ × DetectionMethod := (a.id, a.detectionMethod)

/-- The `seen`-set filter of the `GET` pipeline: keep the first anomaly
carrying each `(id, detectionMethod)` key. -/
def dedupLoop (seen : List (ℤ × DetectionMethod)) : List Anomaly → List Anomaly
  | [] => []
  | a :: rest =>
    if dedupKey a ∈ seen then dedupLoop seen rest
    else a :: dedupLoop (dedupKey a :: seen) rest

/-- The concatenation order of the `GET` pipeline: z-score temperature,
z-score humidity, rate temperature, rate humidity, over chronological data. -/
noncomputable def allAnomalies (chronologicalData : List SensorReading) : List Anomaly :=
  detectZScoreAnomalies chronologicalData Metric.temperature ++
    detectZScoreAnomalies chronologicalData Metric.humidity ++
    detectRateAnomalies chronologicalData Metric.temperature ++
    detectRateAnomalies chronologicalData Metric.humidity

/-- The `uniqueAnomalies` list of the `GET` pipeline (before sorting). -/
noncomputable def uniqueAnomalies (chronologicalData : List SensorReading) : List Anomaly :=
  dedupLoop [] (allAnomalies chronologicalData)

/-- The sort `uniqueAnomalies.sort((a, b) => timeB - timeA)` — newest first; modelled
as a stable merge sort on the `timestamp` key. -/
noncomputable def sortByTimestampDesc (l : List Anomaly) : List Anomaly :=
  l.mergeSort (fun a b => decide (b.timestamp ≤ a.timestamp))

/-- The second deduplication key of the `GET` pipeline:
the string `` `${a.id}-${a.timestamp}` `` (modelled as a pair). -/
def dedupKey2 (a : Anomaly) : ℤ × ℤ := (a.id, a.timestamp)

/-- The second `seen`-set filter, applied after merging with logged
anomalies. -/
def dedupLoop2 (seen : List (ℤ × ℤ)) : List Anomaly → List Anomaly
  | [] => []
  | a :: rest =>
    if dedupKey2 a ∈ seen then dedupLoop2 seen rest
    else a :: dedupLoop2 (dedupKey2 a :: seen) rest

/-- The pure core of the batch `GET` handler with `logged=false` (so
`loggedAnomalies = []`): reverse the newest-first fetch to chronological
order, detect, deduplicate by `(id, method)`, sort newest first, merge with
the (empty) logged list, deduplicate by `(id, timestamp)`, return the top
50. -/
noncomputable def getResponseAnomalies (data : List SensorReading) : List Anomaly :=
  if data.length = 0 then []
  else
    let chronologicalData := data.reverse
    let unique := dedupLoop [] (allAnomalies chronologicalData)
    let sortedUnique := sortByTimestampDesc unique
    let combined := ([] : List Anomaly) ++ sortedUnique
    (dedupLoop2 [] combined).take 50

end anomaliesRoute

namespace anomalyDetector

/-- The `Stats` interface of `anomalyDetector.ts`. -/
structure Stats where
  mean : ℝ
  std : ℝ
  min : ℝ
  max : ℝ

/-- The `calculateStats` of `anomalyDetector.ts`: population mean/std,
`Math.min(...values)` / `Math.max(...values)`. -/
noncomputable def calculateStats (values : List ℝ) : Stats :=
  if values.length = 0 then ⟨0, 0, 0, 0⟩
  else
    let mean : ℝ := values.sum / values.length
    let variance : ℝ := (values.map (fun val => (val - mean) ^ 2)).sum / values.length
    { mean := mean
      std := Real.sqrt variance
      min := values.min?.getD 0
      max := values.max?.getD 0 }

/-- The module-level `statsCache` (the `lastUpdated` staleness timer is not
modelled; the refresh decision is outside the pure core). -/
structure StatsCache where
  temperature : Option Stats
  humidity : Option Stats
  recentReadings : List SensorReading

/-- Pure core of `refreshStatsCache`: `none` models a failed fetch
(`error || !data`), on which the function returns early and the previous
cache value stays in place.  On success it filters nulls *and zeros* per
metric and keeps the 10 newest readings for rate detection. -/
noncomputable def refreshStatsCache (prev : StatsCache)
    (fetched : Option (List SensorReading)) : StatsCache :=
  match fetched with
  | none => prev
  | some readings =>
    let tempValues := (readings.filterMap (fun r => r.temperature)).filter (fun v => v ≠ 0)
    let humidValues := (readings.filterMap (fun r => r.humidity)).filter (fun v => v ≠ 0)
    { temperature := some (calculateStats tempValues)
      humidity := some (calculateStats humidValues)
      recentReadings := readings.take 10 }

/-- The temperature z-score block of `checkRealtimeAnomaly`, guarded by
`statsCache.temperature && statsCache.temperature.mean !== 0` and using the
effective-std floor `MIN_STD_TEMP`. -/
noncomputable def realtimeTempZ (cache : StatsCache) (now : ℤ)
    (temperature : ℝ) : List Anomaly :=
  match cache.temperature with
  | none => []
  | some s =>
    if s.mean ≠ 0 then
      let effectiveStd := max s.std MIN_STD_TEMP
      let zscore := |temperature - s.mean| / effectiveStd
      if zscore > ZSCORE_THRESHOLD then
        [{ id := 0
           timestamp := now
           metric := Metric.temperature
           value := temperature
           expectedRange :=
             (round2 (s.mean - 2 * effectiveStd), round2 (s.mean + 2 * effectiveStd))
           deviation := round2 zscore
           detectionMethod := DetectionMethod.realtime
           severity :=
             if zscore > 4 then Severity.high
             else if zscore > 3.5 then Severity.medium
             else Severity.low }]
      else []
    else []

/-- The humidity z-score block of `checkRealtimeAnomaly` (floor
`MIN_STD_HUMIDITY`). -/
noncomputable def realtimeHumZ (cache : StatsCache) (now : ℤ)
    (humidity : ℝ) : List Anomaly :=
  match cache.humidity with
  | none => []
  | some s =>
    if s.mean ≠ 0 then
      let effectiveStd := max s.std MIN_STD_HUMIDITY
      let zscore := |humidity - s.mean| / effectiveStd
      if zscore > ZSCORE_THRESHOLD then
        [{ id := 0
           timestamp := now
           metric := Metric.humidity
           value := humidity
           expectedRange :=
             (round2 (s.mean - 2 * effectiveStd), round2 (s.mean + 2 * effectiveStd))
           deviation := round2 zscore
           detectionMethod := DetectionMethod.realtime
           severity :=
             if zscore > 4 then Severity.high
             else if zscore > 3.5 then Severity.medium
             else Severity.low }]
      else []
    else []

/-- The temperature rate-of-change block of `checkRealtimeAnomaly`:
compares against the most recent cached reading, guarded by
`lastReading.temperature !== null && lastReading.temperature !== 0`. -/
noncomputable def realtimeRateT (cache : StatsCache) (now : ℤ)
    (temperature : ℝ) : List Anomaly :=
  match cache.recentReadings with
  | [] => []
  | lastReading :: _ =>
    match lastReading.temperature with
    | none => []
    | some lt =>
      if lt ≠ 0 then
        let tempChange := |temperature - lt|
        if tempChange > TEMP_RATE_THRESHOLD then
          [{ id := 0
             timestamp := now
             metric := Metric.temperature
             value := temperature
             expectedRange := (lt - TEMP_RATE_THRESHOLD, lt + TEMP_RATE_THRESHOLD)
             deviation := round2 tempChange
             detectionMethod := DetectionMethod.rate_of_change
             severity :=
               if tempChange > TEMP_RATE_THRESHOLD * 2 then Severity.high
               else if tempChange > TEMP_RATE_THRESHOLD * 1.5 then Severity.medium
               else Severity.low }]
        else []
      else []

/-- The humidity rate-of-change block of `checkRealtimeAnomaly`. -/
noncomputable def realtimeRateH (cache : StatsCache) (now : ℤ)
    (humidity : ℝ) : List Anomaly :=
  match cache.recentReadings with
  | [] => []
  | lastReading :: _ =>
    match lastReading.humidity with
    | none => []
    | some lh =>
      if lh ≠ 0 then
        let humidChange := |humidity - lh|
        if humidChange > HUMIDITY_RATE_THRESHOLD then
          [{ id := 0
             timestamp := now
             metric := Metric.humidity
             value := humidity
             expectedRange := (lh - HUMIDITY_RATE_THRESHOLD, lh + HUMIDITY_RATE_THRESHOLD)
             deviation := round2 humidChange
             detectionMethod := DetectionMethod.rate_of_change
             severity :=
               if humidChange > HUMIDITY_RATE_THRESHOLD * 2 then Severity.high
               else if humidChange > HUMIDITY_RATE_THRESHOLD * 1.5 then Severity.medium
               else Severity.low }]
        else []
      else []

/-- The function `checkRealtimeAnomaly` (detection part; `now` is the shared timestamp
`new Date().toISOString()`): the four pushes of the source function in
source order. -/
noncomputable def checkRealtimeAnomaly (cache : StatsCache) (now : ℤ)
    (temperature humidity : ℝ) : List Anomaly :=
  realtimeTempZ cache now temperature ++ realtimeHumZ cache now humidity ++
    realtimeRateT cache now temperature ++ realtimeRateH cache now humidity

/-- The function `logAnomalies`: the insert error (if any) is caught and surfaced as a
console warning; the returned value is the warning side channel. -/
def logAnomalies (insertError : Option String) : Option String :=
  match insertError with
  | some msg => some msg
  | none => none

/-- The function `checkRealtimeAnomaly` including its logging tail: anomalies are
forwarded to the sink only when non-empty, and the anomaly list is returned
unconditionally — a sink failure only produces a warning. -/
noncomputable def checkRealtimeAnomalyRun (cache : StatsCache) (now : ℤ)
    (temperature humidity : ℝ) (insertError : Option String) :
    List Anomaly × Option String :=
  let anomalies := checkRealtimeAnomaly cache now temperature humidity
  if anomalies.length > 0 then (anomalies, logAnomalies insertError)
  else (anomalies, none)

end anomalyDetector

namespace cronRoute

/-- One detected record of the cron route (a plain object, narrower than
`Anomaly`). -/
structure CronAnomaly where
  id : ℤ
  timestamp : ℤ
  metric : Metric
  value : ℝ
  zscore : ℝ
  severity : Severity

/-- The `tempValues` / `humidValues` of the cron `GET`: nulls filtered (zeros
kept, unlike `refreshStatsCache`). -/
def cronValues (readings : List SensorReading) (metric : Metric) : List ℝ :=
  readings.filterMap (fun r => r.metricValue metric)

/-- The `tempMean` / `humidMean` (no emptiness guard in the source; `0 / 0 = 0`
here where JavaScript yields `NaN`, and in both cases the `std > 0` guard
below then abstains). -/
noncomputable def cronMean (readings : List SensorReading) (metric : Metric) : ℝ :=
  (cronValues readings metric).sum / (cronValues readings metric).length

/-- The `tempStd` / `humidStd`: population standard deviation. -/
noncomputable def cronStd (readings : List SensorReading) (metric : Metric) : ℝ :=
  Real.sqrt
    (((cronValues readings metric).map
        (fun v => (v - cronMean readings metric) ^ 2)).sum /
      (cronValues readings metric).length)

/-- The per-reading, per-metric push of the cron detection loop. -/
noncomputable def cronBody (readings : List SensorReading) (metric : Metric)
    (reading : SensorReading) : List CronAnomaly :=
  match reading.metricValue metric with
  | none => []
  | some value =>
    if cronStd readings metric > 0 then
      let zscore := |value - cronMean readings metric| / cronStd readings metric
      if zscore > ZSCORE_THRESHOLD then
        [{ id := reading.id
           timestamp := reading.created_at
           metric := metric
           value := value
           zscore := round2 zscore
           severity :=
             if zscore > 4 then Severity.high
             else if zscore > 3.5 then Severity.medium
             else Severity.low }]
      else []
    else []

/-- The detection loop of the cron `GET`: per reading, the temperature check
is pushed before the humidity check. -/
noncomputable def cronAnomalies (readings : List SensorReading) : List CronAnomaly :=
  readings.flatMap (fun reading =>
    cronBody readings Metric.temperature reading ++
      cronBody readings Metric.humidity reading)

end cronRoute

/-! Section Specification-side definitions for the rate-of-change contract -/

/-- The per-metric subsequence of readings whose value for the metric is
present, paired with that value (spec §4.4: "readings for one metric"). -/
noncomputable def presentSeq (data : List SensorReading) (metric : Metric) :
    List (SensorReading × ℝ) :=
  data.filterMap (fun r => (r.metricValue metric).map (fun v => (r, v)))

/-- Specification form of rate detection (spec §4.4): compare exactly the
consecutive pairs of the present-value sequence, emitting `rateBody` for
each pair.  Used to characterise `detectRateAnomalies`. -/
noncomputable def ratePairsSpec (metric : Metric) (threshold : ℝ) :
    List (SensorReading × ℝ) → List Anomaly
  | [] => []
  | [_] => []
  | (_, prev) :: (reading, value) :: rest =>
    (anomaliesRoute.rateBody metric threshold prev reading value).toList ++
      ratePairsSpec metric threshold ((reading, value) :: rest)

/-! Section Concrete fixture: a 17-reading window whose last reading is both a
z-score outlier and a rate-of-change outlier on both metrics.

Temperature window: sixteen samples at 24 and one at 41
(`mean = 25`, population `std = 4`, outlier z-score exactly 4).
Humidity window: sixteen samples at 50 and one at 84
(`mean = 52`, population `std = 8`, outlier z-score exactly 4). -/

noncomputable def d17chron : List SensorReading :=
  [    ⟨1, some 24, some 50, 1⟩,
    ⟨2, some 24, some 50, 2⟩,
    ⟨3, some 24, some 50, 3⟩,
    ⟨4, some 24, some 50, 4⟩,
    ⟨5, some 24, some 50, 5⟩,
    ⟨6, some 24, some 50, 6⟩,
    ⟨7, some 24, some 50, 7⟩,
    ⟨8, some 24, some 50, 8⟩,
    ⟨9, some 24, some 50, 9⟩,
    ⟨10, some 24, some 50, 10⟩,
    ⟨11, some 24, some 50, 11⟩,
    ⟨12, some 24, some 50, 12⟩,
    ⟨13, some 24, some 50, 13⟩,
    ⟨14, some 24, some 50, 14⟩,
    ⟨15, some 24, some 50, 15⟩,
    ⟨16, some 24, some 50, 16⟩,
    ⟨17, some 41, some 84, 17⟩]

/-- The temperature z-score anomaly of reading 17. -/
noncomputable def d17aTz : Anomaly :=
  ⟨17, 17, Metric.temperature, 41, (17, 33), 4, DetectionMethod.zscore,
    Severity.medium⟩

/-- The humidity z-score anomaly of reading 17. -/
noncomputable def d17aHz : Anomaly :=
  ⟨17, 17, Metric.humidity, 84, (36, 68), 4, DetectionMethod.zscore,
    Severity.medium⟩

/-- The temperature rate anomaly of reading 17. -/
noncomputable def d17aTr : Anomaly :=
  ⟨17, 17, Metric.temperature, 41, (22, 26), 17,
    DetectionMethod.rate_of_change, Severity.high⟩

/-- The humidity rate anomaly of reading 17. -/
noncomputable def d17aHr : Anomaly :=
  ⟨17, 17, Metric.humidity, 84, (45, 55), 34,
    DetectionMethod.rate_of_change, Severity.high⟩

/-! Section General helper lemmas -/

/-- The head (via `getD`) of a nonempty ascending-sorted list is a member
and a lower bound. -/
theorem sorted_getD_zero {l : List ℝ} (hs : l.Sorted (· ≤ ·)) (hne : l ≠ []) :
    l.getD 0 0 ∈ l ∧ ∀ x ∈ l, l.getD 0 0 ≤ x := by
  cases l with
  | nil => exact absurd rfl hne
  | cons a t =>
    refine ⟨List.mem_cons_self a t, ?_⟩
    intro x hx
    rcases List.mem_cons.mp hx with h | h
    · simp [h]
    · simpa using List.rel_of_sorted_cons hs x h

/-- The last element (via `getD (length - 1)`) of a nonempty
ascending-sorted list is a member and an upper bound. -/
theorem sorted_getD_last {l : List ℝ} (hs : l.Sorted (· ≤ ·)) (hne : l ≠ []) :
    l.getD (l.length - 1) 0 ∈ l ∧ ∀ x ∈ l, x ≤ l.getD (l.length - 1) 0 := by
  induction l with
  | nil => exact absurd rfl hne
  | cons a t ih =>
    cases t with
    | nil => simp
    | cons b u =>
      have htail := ih hs.of_cons (by simp)
      have hstep : (a :: b :: u).getD ((a :: b :: u).length - 1) 0 =
          (b :: u).getD ((b :: u).length - 1) 0 := by
        simp [List.getD]
      refine ⟨?_, ?_⟩
      · rw [hstep]
        exact List.mem_cons_of_mem a htail.1
      · intro x hx
        rw [hstep]
        rcases List.mem_cons.mp hx with h | h
        · subst h
          exact le_trans (List.rel_of_sorted_cons hs _ htail.1) le_rfl
        · exact htail.2 x h

/-- Every anomaly of the realtime temperature z-score block is a
temperature/`realtime` anomaly. -/
theorem mem_realtimeTempZ {cache : anomalyDetector.StatsCache} {now : ℤ}
    {t : ℝ} {a : Anomaly} (ha : a ∈ anomalyDetector.realtimeTempZ cache now t) :
    a.metric = Metric.temperature ∧ a.detectionMethod = DetectionMethod.realtime := by
  cases hct : cache.temperature with
  | none => simp [anomalyDetector.realtimeTempZ, hct] at ha
  | some s =>
    simp only [anomalyDetector.realtimeTempZ, hct] at ha
    split_ifs at ha <;> simp_all

/-- Every anomaly of the realtime humidity z-score block is a
humidity/`realtime` anomaly. -/
theorem mem_realtimeHumZ {cache : anomalyDetector.StatsCache} {now : ℤ}
    {h : ℝ} {a : Anomaly} (ha : a ∈ anomalyDetector.realtimeHumZ cache now h) :
    a.metric = Metric.humidity ∧ a.detectionMethod = DetectionMethod.realtime := by
  cases hch : cache.humidity with
  | none => simp [anomalyDetector.realtimeHumZ, hch] at ha
  | some s =>
    simp only [anomalyDetector.realtimeHumZ, hch] at ha
    split_ifs at ha <;> simp_all

/-- Every anomaly of the realtime temperature rate block is a
temperature/`rate_of_change` anomaly. -/
theorem mem_realtimeRateT {cache : anomalyDetector.StatsCache} {now : ℤ}
    {t : ℝ} {a : Anomaly} (ha : a ∈ anomalyDetector.realtimeRateT cache now t) :
    a.metric = Metric.temperature ∧
      a.detectionMethod = DetectionMethod.rate_of_change := by
  cases hcr : cache.recentReadings with
  | nil => simp [anomalyDetector.realtimeRateT, hcr] at ha
  | cons lastReading rest =>
    cases hlt : lastReading.temperature with
    | none => simp [anomalyDetector.realtimeRateT, hcr, hlt] at ha
    | some lt =>
      simp only [anomalyDetector.realtimeRateT, hcr, hlt] at ha
      split_ifs at ha <;> simp_all

/-- Every anomaly of the realtime humidity rate block is a
humidity/`rate_of_change` anomaly. -/
theorem mem_realtimeRateH {cache : anomalyDetector.StatsCache} {now : ℤ}
    {h : ℝ} {a : Anomaly} (ha : a ∈ anomalyDetector.realtimeRateH cache now h) :
    a.metric = Metric.humidity ∧
      a.detectionMethod = DetectionMethod.rate_of_change := by
  cases hcr : cache.recentReadings with
  | nil => simp [anomalyDetector.realtimeRateH, hcr] at ha
  | cons lastReading rest =>
    cases hlh : lastReading.humidity with
    | none => simp [anomalyDetector.realtimeRateH, hcr, hlh] at ha
    | some lh =>
      simp only [anomalyDetector.realtimeRateH, hcr, hlh] at ha
      split_ifs at ha <;> simp_all

/-- A cached temperature mean of exactly `0` disables the realtime
temperature z-score block. -/
theorem realtimeTempZ_of_mean_zero {cache : anomalyDetector.StatsCache}
    {now : ℤ} {t : ℝ} {s : anomalyDetector.Stats}
    (hc : cache.temperature = some s) (hm : s.mean = 0) :
    anomalyDetector.realtimeTempZ cache now t = [] := by
  simp [anomalyDetector.realtimeTempZ, hc, hm]

/-- A cached humidity mean of exactly `0` disables the realtime humidity
z-score block. -/
theorem realtimeHumZ_of_mean_zero {cache : anomalyDetector.StatsCache}
    {now : ℤ} {h : ℝ} {s : anomalyDetector.Stats}
    (hc : cache.humidity = some s) (hm : s.mean = 0) :
    anomalyDetector.realtimeHumZ cache now h = [] := by
  simp [anomalyDetector.realtimeHumZ, hc, hm]

/-- A most-recent cached temperature of exactly `0` disables the realtime
temperature rate block. -/
theorem realtimeRateT_of_zero {cache : anomalyDetector.StatsCache} {now : ℤ}
    {t : ℝ} {lastReading : SensorReading} {rest : List SensorReading}
    (hr : cache.recentReadings = lastReading :: rest)
    (hz : lastReading.temperature = some 0) :
    anomalyDetector.realtimeRateT cache now t = [] := by
  simp [anomalyDetector.realtimeRateT, hr, hz]

/-- A most-recent cached humidity of exactly `0` disables the realtime
humidity rate block. -/
theorem realtimeRateH_of_zero {cache : anomalyDetector.StatsCache} {now : ℤ}
    {h : ℝ} {lastReading : SensorReading} {rest : List SensorReading}
    (hr : cache.recentReadings = lastReading :: rest)
    (hz : lastReading.humidity = some 0) :
    anomalyDetector.realtimeRateH cache now h = [] := by
  simp [anomalyDetector.realtimeRateH, hr, hz]

/-- The values of the present-value sequence are exactly the non-null
values used for the metric's statistics window. -/
theorem presentSeq_map_snd (data : List SensorReading) (metric : Metric) :
    (presentSeq data metric).map (fun x => x.2) =
      data.filterMap (fun r => r.metricValue metric) := by
  induction data with
  | nil => rfl
  | cons r rest ih =>
    cases hv : r.metricValue metric with
    | none => simp [presentSeq, List.filterMap_cons, hv] at ih ⊢; exact ih
    | some v => simp [presentSeq, List.filterMap_cons, hv] at ih ⊢; exact ih

/-- The reading ids of the present-value sequence form a sublist of the
data's ids. -/
theorem presentSeq_ids_sublist (data : List SensorReading) (metric : Metric) :
    ((presentSeq data metric).map (fun x => x.1.id)).Sublist
      (data.map (fun r => r.id)) := by
  induction data with
  | nil => simp [presentSeq]
  | cons r rest ih =>
    cases hv : r.metricValue metric with
    | none =>
      simp only [presentSeq, List.filterMap_cons, hv, List.map_cons] at ih ⊢
      exact ih.cons _
    | some v =>
      simp only [presentSeq, List.filterMap_cons, hv, List.map_cons] at ih ⊢
      exact ih.cons₂ _

/-- A `rateBody` anomaly carries the id of the `current` reading of its
pair. -/
theorem rateBody_id {metric : Metric} {threshold prev v : ℝ}
    {reading : SensorReading} {a : Anomaly}
    (h : anomaliesRoute.rateBody metric threshold prev reading v = some a) :
    a.id = reading.id := by
  simp only [anomaliesRoute.rateBody] at h
  split_ifs at h <;> (rcases Option.some_injective _ h with rfl; rfl)

/-- Every anomaly of `ratePairsSpec` carries the id of a non-head element
of the sequence: the first element is never flagged. -/
theorem ratePairsSpec_id_mem {metric : Metric} {threshold : ℝ}
    {l : List (SensorReading × ℝ)} {a : Anomaly}
    (ha : a ∈ ratePairsSpec metric threshold l) :
    a.id ∈ l.tail.map (fun x => x.1.id) := by
  induction l with
  | nil => simp [ratePairsSpec] at ha
  | cons x xs ih =>
    cases xs with
    | nil => simp [ratePairsSpec] at ha
    | cons y rest =>
      rw [show ratePairsSpec metric threshold (x :: y :: rest) =
          (anomaliesRoute.rateBody metric threshold x.2 y.1 y.2).toList ++
            ratePairsSpec metric threshold (y :: rest) from rfl] at ha
      rcases List.mem_append.mp ha with ha | ha
      · cases hb : anomaliesRoute.rateBody metric threshold x.2 y.1 y.2 with
        | none => rw [hb] at ha; simp at ha
        | some b =>
          rw [hb] at ha
          rcases List.mem_singleton.mp (by simpa using ha) with rfl
          simp [rateBody_id hb]
      · have := ih ha
        simp only [List.tail_cons] at this ⊢
        rcases List.mem_map.mp this with ⟨z, hz, hid⟩
        exact List.mem_map.mpr ⟨z, List.mem_of_mem_tail hz, hid⟩

/-- The `prevValue` loop of the source computes exactly the
consecutive-pair comparisons of the present-value sequence. -/
theorem rateLoop_spec (metric : Metric) (threshold : ℝ)
    (data : List SensorReading) :
    anomaliesRoute.rateLoop metric threshold none data =
      ratePairsSpec metric threshold (presentSeq data metric) ∧
    ∀ (p : ℝ) (dummy : SensorReading),
      anomaliesRoute.rateLoop metric threshold (some p) data =
        ratePairsSpec metric threshold ((dummy, p) :: presentSeq data metric) := by
  induction data with
  | nil => exact ⟨rfl, fun p dummy => rfl⟩
  | cons r rest ih =>
    cases hv : r.metricValue metric with
    | none =>
      constructor
      · rw [show anomaliesRoute.rateLoop metric threshold none (r :: rest) =
            anomaliesRoute.rateLoop metric threshold none rest from by
          rw [anomaliesRoute.rateLoop, hv]]
        simpa [presentSeq, List.filterMap_cons, hv] using ih.1
      · intro p dummy
        rw [show anomaliesRoute.rateLoop metric threshold (some p) (r :: rest) =
            anomaliesRoute.rateLoop metric threshold (some p) rest from by
          rw [anomaliesRoute.rateLoop, hv]]
        simpa [presentSeq, List.filterMap_cons, hv] using ih.2 p dummy
    | some v =>
      constructor
      · rw [show anomaliesRoute.rateLoop metric threshold none (r :: rest) =
            anomaliesRoute.rateLoop metric threshold (some v) rest from by
          rw [anomaliesRoute.rateLoop, hv]]
        have hseq : presentSeq (r :: rest) metric =
            (r, v) :: presentSeq rest metric := by
          simp [presentSeq, List.filterMap_cons, hv]
        rw [hseq]
        exact ih.2 v r
      · intro p dummy
        rw [show anomaliesRoute.rateLoop metric threshold (some p) (r :: rest) =
            (anomaliesRoute.rateBody metric threshold p r v).toList ++
              anomaliesRoute.rateLoop metric threshold (some v) rest from by
          rw [anomaliesRoute.rateLoop, hv]]
        have hseq : presentSeq (r :: rest) metric =
            (r, v) :: presentSeq rest metric := by
          simp [presentSeq, List.filterMap_cons, hv]
        rw [hseq, show ratePairsSpec metric threshold
            ((dummy, p) :: (r, v) :: presentSeq rest metric) =
            (anomaliesRoute.rateBody metric threshold p r v).toList ++
              ratePairsSpec metric threshold ((r, v) :: presentSeq rest metric)
          from rfl]
        rw [ih.2 v r]

/-! Cauchy–Schwarz-style bounds on list sums, used for the Samuelson
bound: a sample of a window of size `n` is at most `sqrt(n-1)` standard
deviations from the window's own mean. -/

/-- Bound `2a·Σx ≤ n·a² + Σx²` over a list. -/
theorem list_two_mul_sum_le (a : ℝ) (l : List ℝ) :
    2 * a * l.sum ≤ l.length * a ^ 2 + (l.map (fun x => x ^ 2)).sum := by
  induction l with
  | nil => simp
  | cons b t ih =>
    simp only [List.sum_cons, List.map_cons, List.length_cons]
    push_cast
    nlinarith [ih, two_mul_le_add_sq a b]

/-- Cauchy–Schwarz with the all-ones vector: `(Σx)² ≤ n · Σx²`. -/
theorem list_sq_sum_le (l : List ℝ) :
    l.sum ^ 2 ≤ l.length * (l.map (fun x => x ^ 2)).sum := by
  induction l with
  | nil => simp
  | cons a t ih =>
    simp only [List.sum_cons, List.map_cons, List.length_cons]
    push_cast
    nlinarith [ih, list_two_mul_sum_le a t]

/-- Sum shift `Σ(x - c) = Σx - n·c` over a list. -/
theorem list_map_sub_sum (l : List ℝ) (c : ℝ) :
    (l.map (fun x => x - c)).sum = l.sum - l.length * c := by
  induction l with
  | nil => simp
  | cons a t ih =>
    simp only [List.sum_cons, List.map_cons, List.length_cons]
    push_cast
    rw [ih]
    ring

/-- Samuelson's inequality (weak form): if the deviations from `μ` sum to
zero, then for every member `v` of the list,
`(v-μ)²·n ≤ (n-1)·Σ(x-μ)²`. -/
theorem samuelson_aux (l : List ℝ) (μ v : ℝ) (hv : v ∈ l)
    (hsum : (l.map (fun x => x - μ)).sum = 0) :
    (v - μ) ^ 2 * l.length ≤
      ((l.length : ℝ) - 1) * (l.map (fun x => (x - μ) ^ 2)).sum := by
  obtain ⟨l₁, l₂, rfl⟩ := List.append_of_mem hv
  have hs : (l₁.map (fun x => x - μ)).sum + (l₂.map (fun x => x - μ)).sum =
      -(v - μ) := by
    simp only [List.map_append, List.sum_append, List.map_cons,
      List.sum_cons] at hsum
    linarith
  have hcs := list_sq_sum_le ((l₁ ++ l₂).map (fun x => x - μ))
  simp only [List.map_append, List.sum_append, List.length_append,
    List.length_map, List.map_map, Function.comp_def] at hcs
  push_cast at hcs
  have hlen : ((l₁ ++ v :: l₂).length : ℝ) =
      (l₁.length : ℝ) + l₂.length + 1 := by
    simp [List.length_append]
    ring
  have hsq : ((l₁ ++ v :: l₂).map (fun x => (x - μ) ^ 2)).sum =
      (l₁.map (fun x => (x - μ) ^ 2)).sum + (v - μ) ^ 2 +
        (l₂.map (fun x => (x - μ) ^ 2)).sum := by
    simp only [List.map_append, List.sum_append, List.map_cons, List.sum_cons]
    ring
  rw [hlen, hsq]
  have hs1nn : 0 ≤ (l₁.map (fun x => (x - μ) ^ 2)).sum :=
    List.sum_nonneg (by
      intro x hx
      rcases List.mem_map.mp hx with ⟨y, _, rfl⟩
      positivity)
  have hs2nn : 0 ≤ (l₂.map (fun x => (x - μ) ^ 2)).sum :=
    List.sum_nonneg (by
      intro x hx
      rcases List.mem_map.mp hx with ⟨y, _, rfl⟩
      positivity)
  have hs2 : ((l₁.map (fun x => x - μ)).sum + (l₂.map (fun x => x - μ)).sum) ^ 2 =
      (v - μ) ^ 2 := by
    rw [hs]
    ring
  rw [hs2] at hcs
  nlinarith [hcs, hs1nn, hs2nn, Nat.cast_nonneg (α := ℝ) l₁.length,
    Nat.cast_nonneg (α := ℝ) l₂.length, sq_nonneg (v - μ)]

/-- Every record of `cronBody` carries its metric. -/
theorem cronBody_metric {readings : List SensorReading} {metric : Metric}
    {reading : SensorReading} {a : cronRoute.CronAnomaly}
    (ha : a ∈ cronRoute.cronBody readings metric reading) :
    a.metric = metric := by
  cases hv : reading.metricValue metric with
  | none => simp [cronRoute.cronBody, hv] at ha
  | some v =>
    simp only [cronRoute.cronBody, hv] at ha
    split_ifs at ha <;> simp_all

/-- The deviations of the cron window from the cron mean sum to zero. -/
theorem cron_dev_sum (readings : List SensorReading) (metric : Metric)
    (hne : cronRoute.cronValues readings metric ≠ []) :
    ((cronRoute.cronValues readings metric).map
      (fun x => x - cronRoute.cronMean readings metric)).sum = 0 := by
  have hlen : ((cronRoute.cronValues readings metric).length : ℝ) ≠ 0 := by
    exact_mod_cast List.length_pos.mpr hne |>.ne'
  rw [list_map_sub_sum, cronRoute.cronMean]
  field_simp

/-- Samuelson applied to the cron window: with fewer than 10 samples and a
positive standard deviation, no member of the window has z-score above 3. -/
theorem cron_z_bound (readings : List SensorReading) (metric : Metric)
    (hn : (cronRoute.cronValues readings metric).length < 10)
    (hstd : 0 < cronRoute.cronStd readings metric)
    (v : ℝ) (hv : v ∈ cronRoute.cronValues readings metric) :
    ¬(|v - cronRoute.cronMean readings metric| /
        cronRoute.cronStd readings metric > ZSCORE_THRESHOLD) := by
  intro hgt
  have hn1 : 0 < (cronRoute.cronValues readings metric).length :=
    List.length_pos.mpr (List.ne_nil_of_mem hv)
  have hnr : (0 : ℝ) < (cronRoute.cronValues readings metric).length := by
    exact_mod_cast hn1
  have hSnn : 0 ≤ ((cronRoute.cronValues readings metric).map
      (fun x => (x - cronRoute.cronMean readings metric) ^ 2)).sum :=
    List.sum_nonneg (by
      intro x hx
      rcases List.mem_map.mp hx with ⟨y, _, rfl⟩
      positivity)
  have hsq : cronRoute.cronStd readings metric ^ 2 =
      ((cronRoute.cronValues readings metric).map
        (fun x => (x - cronRoute.cronMean readings metric) ^ 2)).sum /
        (cronRoute.cronValues readings metric).length := by
    rw [cronRoute.cronStd]
    exact Real.sq_sqrt (div_nonneg hSnn (le_of_lt hnr))
  have hSpos : 0 < ((cronRoute.cronValues readings metric).map
      (fun x => (x - cronRoute.cronMean readings metric) ^ 2)).sum := by
    rcases lt_or_eq_of_le hSnn with h | h
    · exact h
    · exfalso
      rw [cronRoute.cronStd, ← h] at hstd
      simp at hstd
  have hsam := samuelson_aux (cronRoute.cronValues readings metric)
    (cronRoute.cronMean readings metric) v hv
    (cron_dev_sum readings metric (List.ne_nil_of_mem hv))
  rw [gt_iff_lt, lt_div_iff hstd, ZSCORE_THRESHOLD] at hgt
  have hsq2 : (3 * cronRoute.cronStd readings metric) ^ 2 < (v -
      cronRoute.cronMean readings metric) ^ 2 := by
    rw [← sq_abs (v - cronRoute.cronMean readings metric)]
    exact pow_lt_pow_left hgt (by positivity) (by norm_num)
  have hn9 : ((cronRoute.cronValues readings metric).length : ℝ) ≤ 9 := by
    exact_mod_cast Nat.lt_succ_iff.mp hn
  have h9 : 9 * (((cronRoute.cronValues readings metric).map
      (fun x => (x - cronRoute.cronMean readings metric) ^ 2)).sum /
      (cronRoute.cronValues readings metric).length) <
      (v - cronRoute.cronMean readings metric) ^ 2 := by
    nlinarith [hsq2, hsq]
  have h9n : (9 : ℝ) * ((cronRoute.cronValues readings metric).map
      (fun x => (x - cronRoute.cronMean readings metric) ^ 2)).sum <
      (v - cronRoute.cronMean readings metric) ^ 2 *
        (cronRoute.cronValues readings metric).length := by
    have h := mul_lt_mul_of_pos_right h9 hnr
    rw [mul_assoc, div_mul_cancel₀ _ (ne_of_gt hnr)] at h
    exact h
  have h8 : ((cronRoute.cronValues readings metric).length - 1 : ℝ) *
      ((cronRoute.cronValues readings metric).map
        (fun x => (x - cronRoute.cronMean readings metric) ^ 2)).sum ≤
      8 * ((cronRoute.cronValues readings metric).map
        (fun x => (x - cronRoute.cronMean readings metric) ^ 2)).sum :=
    mul_le_mul_of_nonneg_right (by linarith) hSnn
  linarith [hsam, h8, h9n, hSpos]

/-! Lemmas about the `(id, detectionMethod)` deduplication filter. -/

/-- Everything kept by the dedup filter comes from the input and carries a
key outside `seen`. -/
theorem dedupLoop_mem {seen : List (ℤ × DetectionMethod)} {l : List Anomaly}
    {a : Anomaly} (ha : a ∈ anomaliesRoute.dedupLoop seen l) :
    a ∈ l ∧ anomaliesRoute.dedupKey a ∉ seen := by
  induction l generalizing seen with
  | nil => simp [anomaliesRoute.dedupLoop] at ha
  | cons b t ih =>
    rw [anomaliesRoute.dedupLoop] at ha
    split_ifs at ha with hb
    · rcases ih ha with ⟨h1, h2⟩
      exact ⟨List.mem_cons_of_mem b h1, h2⟩
    · rcases List.mem_cons.mp ha with rfl | ha'
      · exact ⟨List.mem_cons_self _ _, hb⟩
      · rcases ih ha' with ⟨h1, h2⟩
        exact ⟨List.mem_cons_of_mem b h1, fun hc => h2 (List.mem_cons_of_mem _ hc)⟩

/-- The dedup filter output never carries the same key twice. -/
theorem dedupLoop_pairwise (seen : List (ℤ × DetectionMethod))
    (l : List Anomaly) :
    (anomaliesRoute.dedupLoop seen l).Pairwise
      (fun x y => anomaliesRoute.dedupKey x ≠ anomaliesRoute.dedupKey y) := by
  induction l generalizing seen with
  | nil => simp [anomaliesRoute.dedupLoop]
  | cons b t ih =>
    rw [anomaliesRoute.dedupLoop]
    split_ifs with hb
    · exact ih seen
    · refine List.Pairwise.cons ?_ (ih _)
      intro c hc hkeq
      exact (dedupLoop_mem hc).2 (by rw [← hkeq]; exact List.mem_cons_self _ _)

/-- The first anomaly carrying a given key survives the dedup filter. -/
theorem dedupLoop_keeps_first {seen : List (ℤ × DetectionMethod)}
    {l₁ l₂ : List Anomaly} {a : Anomaly}
    (hseen : anomaliesRoute.dedupKey a ∉ seen)
    (hl₁ : ∀ b ∈ l₁, anomaliesRoute.dedupKey b ≠ anomaliesRoute.dedupKey a) :
    a ∈ anomaliesRoute.dedupLoop seen (l₁ ++ a :: l₂) := by
  induction l₁ generalizing seen with
  | nil =>
    rw [List.nil_append, anomaliesRoute.dedupLoop, if_neg hseen]
    exact List.mem_cons_self _ _
  | cons b t ih =>
    rw [List.cons_append, anomaliesRoute.dedupLoop]
    split_ifs with hb
    · exact ih hseen (fun c hc => hl₁ c (List.mem_cons_of_mem b hc))
    · refine List.mem_cons_of_mem b (ih ?_ (fun c hc => hl₁ c (List.mem_cons_of_mem b hc)))
      intro hc
      rcases List.mem_cons.mp hc with hc | hc
      · exact hl₁ b (List.mem_cons_self _ _) hc.symm
      · exact hseen hc

/-! Shape lemmas for the detector outputs. -/

/-- A `zscoreBody` anomaly carries its reading's id, its metric and the
`zscore` method. -/
theorem zscoreBody_shape {stats : anomaliesRoute.Stats} {metric : Metric}
    {r : SensorReading} {a : Anomaly}
    (h : anomaliesRoute.zscoreBody stats metric r = some a) :
    a.id = r.id ∧ a.metric = metric ∧
      a.detectionMethod = DetectionMethod.zscore := by
  cases hv : r.metricValue metric with
  | none => rw [anomaliesRoute.zscoreBody, hv] at h; exact absurd h (by simp)
  | some v =>
    rw [anomaliesRoute.zscoreBody, hv] at h
    simp only at h
    split_ifs at h <;> (rcases Option.some_injective _ h with rfl; exact ⟨rfl, rfl, rfl⟩)

/-- A `rateBody` anomaly carries its metric and the `rate_of_change`
method. -/
theorem rateBody_shape {metric : Metric} {threshold prev v : ℝ}
    {reading : SensorReading} {a : Anomaly}
    (h : anomaliesRoute.rateBody metric threshold prev reading v = some a) :
    a.metric = metric ∧ a.detectionMethod = DetectionMethod.rate_of_change := by
  simp only [anomaliesRoute.rateBody] at h
  split_ifs at h <;> (rcases Option.some_injective _ h with rfl; exact ⟨rfl, rfl⟩)

/-- Every `ratePairsSpec` anomaly arises from some `rateBody` application. -/
theorem ratePairsSpec_mem {metric : Metric} {threshold : ℝ}
    {l : List (SensorReading × ℝ)} {a : Anomaly}
    (ha : a ∈ ratePairsSpec metric threshold l) :
    ∃ p r v, anomaliesRoute.rateBody metric threshold p r v = some a := by
  induction l with
  | nil => simp [ratePairsSpec] at ha
  | cons x xs ih =>
    cases xs with
    | nil => simp [ratePairsSpec] at ha
    | cons y rest =>
      rw [show ratePairsSpec metric threshold (x :: y :: rest) =
          (anomaliesRoute.rateBody metric threshold x.2 y.1 y.2).toList ++
            ratePairsSpec metric threshold (y :: rest) from rfl] at ha
      rcases List.mem_append.mp ha with ha | ha
      · cases hb : anomaliesRoute.rateBody metric threshold x.2 y.1 y.2 with
        | none => rw [hb] at ha; simp at ha
        | some b =>
          rw [hb] at ha
          rcases List.mem_singleton.mp (by simpa using ha) with rfl
          exact ⟨x.2, y.1, y.2, hb⟩
      · exact ih ha

/-- Every anomaly of the batch z-score detector is a `zscore` anomaly of
its metric. -/
theorem mem_detectZScore {data : List SensorReading} {metric : Metric}
    {a : Anomaly} (ha : a ∈ anomaliesRoute.detectZScoreAnomalies data metric) :
    a.metric = metric ∧ a.detectionMethod = DetectionMethod.zscore := by
  rw [anomaliesRoute.detectZScoreAnomalies] at ha
  split_ifs at ha with h1
  · simp at ha
  · by_cases h2 : (anomaliesRoute.calculateStats
        (data.filterMap (fun r => r.metricValue metric))).std = 0
    · rw [if_pos h2] at ha
      simp at ha
    · rw [if_neg h2] at ha
      rcases List.mem_filterMap.mp ha with ⟨r, _, hr⟩
      exact ⟨(zscoreBody_shape hr).2.1, (zscoreBody_shape hr).2.2⟩

/-- Every anomaly of the batch rate detector is a `rate_of_change` anomaly
of its metric. -/
theorem mem_detectRate {data : List SensorReading} {metric : Metric}
    {a : Anomaly} (ha : a ∈ anomaliesRoute.detectRateAnomalies data metric) :
    a.metric = metric ∧ a.detectionMethod = DetectionMethod.rate_of_change := by
  rw [anomaliesRoute.detectRateAnomalies,
    (rateLoop_spec metric _ data).1] at ha
  rcases ratePairsSpec_mem ha with ⟨p, r, v, hb⟩
  exact rateBody_shape hb

/-- Ids of a `filterMap` whose function preserves ids form a sublist of
the data's ids. -/
theorem filterMap_ids_sublist (f : SensorReading → Option Anomaly)
    (hf : ∀ r a, f r = some a → a.id = r.id) (data : List SensorReading) :
    ((data.filterMap f).map (fun a => a.id)).Sublist
      (data.map (fun r => r.id)) := by
  induction data with
  | nil => simp
  | cons r rest ih =>
    cases hr : f r with
    | none =>
      simp only [List.filterMap_cons, hr, List.map_cons]
      exact ih.cons _
    | some a =>
      simp only [List.filterMap_cons, hr, List.map_cons, hf r a hr]
      exact ih.cons₂ _

/-- The batch z-score detector's ids form a sublist of the data's ids. -/
theorem detectZScore_ids_sublist (data : List SensorReading) (metric : Metric) :
    ((anomaliesRoute.detectZScoreAnomalies data metric).map
      (fun a => a.id)).Sublist (data.map (fun r => r.id)) := by
  rw [anomaliesRoute.detectZScoreAnomalies]
  split_ifs with h1
  · simp
  · by_cases h2 : (anomaliesRoute.calculateStats
        (data.filterMap (fun r => r.metricValue metric))).std = 0
    · rw [if_pos h2]
      simp
    · rw [if_neg h2]
      exact filterMap_ids_sublist _ (fun r a h => (zscoreBody_shape h).1) data

/-- The ids of `ratePairsSpec` form a sublist of the ids of the tail of
its pair sequence. -/
theorem ratePairsSpec_ids_sublist (metric : Metric) (threshold : ℝ)
    (l : List (SensorReading × ℝ)) :
    ((ratePairsSpec metric threshold l).map (fun a => a.id)).Sublist
      (l.tail.map (fun x => x.1.id)) := by
  induction l with
  | nil => simp [ratePairsSpec]
  | cons x xs ih =>
    cases xs with
    | nil => simp [ratePairsSpec]
    | cons y rest =>
      rw [show ratePairsSpec metric threshold (x :: y :: rest) =
          (anomaliesRoute.rateBody metric threshold x.2 y.1 y.2).toList ++
            ratePairsSpec metric threshold (y :: rest) from rfl]
      simp only [List.tail_cons, List.map_cons, List.map_append]
      have ih' := ih
      simp only [List.tail_cons] at ih'
      cases hb : anomaliesRoute.rateBody metric threshold x.2 y.1 y.2 with
      | none =>
        simp only [hb, Option.toList_none, List.nil_append]
        exact ih'.cons _
      | some b =>
        simp only [hb, Option.toList_some, List.singleton_append, List.map_cons]
        rw [rateBody_id hb]
        exact ih'.cons₂ _

/-- The batch rate detector's ids form a sublist of the data's ids. -/
theorem detectRate_ids_sublist (data : List SensorReading) (metric : Metric) :
    ((anomaliesRoute.detectRateAnomalies data metric).map
      (fun a => a.id)).Sublist (data.map (fun r => r.id)) := by
  rw [anomaliesRoute.detectRateAnomalies, (rateLoop_spec metric _ data).1]
  exact ((ratePairsSpec_ids_sublist metric _ _).trans
    ((List.tail_sublist _).map _)).trans (presentSeq_ids_sublist data metric)

/-- In a decomposition of a list with `Nodup` ids, earlier elements have
different ids from the split point. -/
theorem ids_ne_of_decomp {l l₁ l₂ : List Anomaly} {a : Anomaly}
    (hno : (l.map (fun x => x.id)).Nodup) (hl : l = l₁ ++ a :: l₂) :
    ∀ b ∈ l₁, b.id ≠ a.id := by
  subst hl
  rw [List.map_append, List.map_cons] at hno
  rcases List.nodup_append.mp hno with ⟨_, _, hdisj⟩
  intro b hb heq
  exact hdisj (List.mem_map_of_mem _ hb)
    (by rw [heq]; exact List.mem_cons_self _ _)

/-! Section C1: z-score classification -/

/-- C1: for a baseline with positive effective standard deviation and a
window of at least the minimum sample count, a reading's value `v` is
flagged if and only if `z = |v - mean| / std` is strictly greater than 3
(so `z = 3` exactly is not anomalous), with severity `high` iff `z > 4`,
`medium` iff `3.5 < z ≤ 4` and `low` iff `3 < z ≤ 3.5`; under the guards
the detector is exactly the per-reading scan; and concretely for
`mean = 24`, `std = 1` (floor inactive), value `32` yields `z = 8` and
severity `high`, while `26.5` yields `z = 2.5` and no anomaly. -/
theorem zscore_classification (stats : anomaliesRoute.Stats) (metric : Metric)
    (r : SensorReading) (v : ℝ) (hstd : 0 < stats.std)
    (hv : r.metricValue metric = some v) :
    (((anomaliesRoute.zscoreBody stats metric r).isSome ↔
        |v - stats.mean| / stats.std > 3) ∧
      (∀ a, anomaliesRoute.zscoreBody stats metric r = some a →
        a.deviation = round2 (|v - stats.mean| / stats.std) ∧
          (a.severity = Severity.high ↔ |v - stats.mean| / stats.std > 4) ∧
          (a.severity = Severity.medium ↔
            3.5 < |v - stats.mean| / stats.std ∧ |v - stats.mean| / stats.std ≤ 4) ∧
          (a.severity = Severity.low ↔
            3 < |v - stats.mean| / stats.std ∧ |v - stats.mean| / stats.std ≤ 3.5))) ∧
    (∀ data : List SensorReading,
      10 ≤ (data.filterMap (fun q => q.metricValue metric)).length →
      0 < (anomaliesRoute.calculateStats
            (data.filterMap (fun q => q.metricValue metric))).std →
      anomaliesRoute.detectZScoreAnomalies data metric =
        data.filterMap
          (anomaliesRoute.zscoreBody
            (anomaliesRoute.calculateStats
              (data.filterMap (fun q => q.metricValue metric))) metric)) ∧
    (anomaliesRoute.zscoreBody ⟨24, 1, 0, 0, 0, 0⟩ Metric.temperature
        ⟨1, some 32, none, 0⟩ =
      some ⟨1, 0, Metric.temperature, 32, (22, 26), 8, DetectionMethod.zscore,
        Severity.high⟩ ∧
      |(32 : ℝ) - 24| / 1 = 8) ∧
    (anomaliesRoute.zscoreBody ⟨24, 1, 0, 0, 0, 0⟩ Metric.temperature
        ⟨1, some 26.5, none, 0⟩ = none ∧
      |(26.5 : ℝ) - 24| / 1 = 2.5) := by
  refine ⟨⟨?_, ?_⟩, ?_, ⟨?_, by norm_num⟩, ⟨?_, by norm_num⟩⟩
  · simp only [anomaliesRoute.zscoreBody, hv, ZSCORE_THRESHOLD]
    split_ifs with h <;> simp [h]
  · intro a ha
    simp only [anomaliesRoute.zscoreBody, hv, ZSCORE_THRESHOLD] at ha
    split_ifs at ha with h3 h4 h35
    · rcases Option.some_injective _ ha with rfl
      exact ⟨rfl, iff_of_true rfl h4,
        iff_of_false (by simp) (fun hc => absurd h4 (not_lt.mpr hc.2)),
        iff_of_false (by simp) (fun hc => absurd h4 (not_lt.mpr (by linarith [hc.2])))⟩
    · rcases Option.some_injective _ ha with rfl
      exact ⟨rfl, iff_of_false (by simp) h4,
        iff_of_true rfl ⟨h35, not_lt.mp h4⟩,
        iff_of_false (by simp) (fun hc => absurd h35 (not_lt.mpr hc.2))⟩
    · rcases Option.some_injective _ ha with rfl
      exact ⟨rfl, iff_of_false (by simp) h4,
        iff_of_false (by simp) (fun hc => h35 hc.1),
        iff_of_true rfl ⟨h3, not_lt.mp h35⟩⟩
  · intro data hlen hpos
    rw [anomaliesRoute.detectZScoreAnomalies]
    simp only [if_neg (by omega : ¬(data.filterMap (fun q => q.metricValue metric)).length < 10),
      if_neg (by linarith : ¬(anomaliesRoute.calculateStats
        (data.filterMap (fun q => q.metricValue metric))).std = 0)]
  · rw [anomaliesRoute.zscoreBody]
    norm_num [SensorReading.metricValue, ZSCORE_THRESHOLD, round2, round_eq, lt_abs]
  · rw [anomaliesRoute.zscoreBody]
    norm_num [SensorReading.metricValue, ZSCORE_THRESHOLD, abs_le]

/-- Witness for C1 at the concrete baseline `mean = 24`, `std = 1` and
value `32`. -/
theorem zscore_classification_witness :
    (anomaliesRoute.zscoreBody ⟨24, 1, 0, 0, 0, 0⟩ Metric.temperature
        ⟨1, some 32, none, 0⟩).isSome ↔ |(32 : ℝ) - 24| / 1 > 3 :=
  (zscore_classification ⟨24, 1, 0, 0, 0, 0⟩ Metric.temperature
    ⟨1, some 32, none, 0⟩ 32 (by norm_num) rfl).1.1

/-! Section C2: StatisticsCalculator -/

/-- C2: for every non-empty sample list, both `calculateStats` variants
return the arithmetic mean, the *population* standard deviation
`sqrt(mean((x - mean)^2))` (hence nonnegative), and the exact minimum and
maximum of the samples; the empty list yields the all-zero sentinel rather
than an error. -/
theorem stats_correct (values : List ℝ) (h : values ≠ []) :
    ((anomaliesRoute.calculateStats values).mean = values.sum / values.length ∧
      (anomaliesRoute.calculateStats values).std =
        Real.sqrt
          ((values.map (fun x => (x - values.sum / values.length) ^ 2)).sum /
            values.length) ∧
      0 ≤ (anomaliesRoute.calculateStats values).std ∧
      (anomaliesRoute.calculateStats values).min ∈ values ∧
      (∀ x ∈ values, (anomaliesRoute.calculateStats values).min ≤ x) ∧
      (anomaliesRoute.calculateStats values).max ∈ values ∧
      (∀ x ∈ values, x ≤ (anomaliesRoute.calculateStats values).max)) ∧
    ((anomalyDetector.calculateStats values).mean = values.sum / values.length ∧
      (anomalyDetector.calculateStats values).std =
        Real.sqrt
          ((values.map (fun x => (x - values.sum / values.length) ^ 2)).sum /
            values.length) ∧
      0 ≤ (anomalyDetector.calculateStats values).std ∧
      (anomalyDetector.calculateStats values).min ∈ values ∧
      (∀ x ∈ values, (anomalyDetector.calculateStats values).min ≤ x) ∧
      (anomalyDetector.calculateStats values).max ∈ values ∧
      (∀ x ∈ values, x ≤ (anomalyDetector.calculateStats values).max)) ∧
    anomaliesRoute.calculateStats [] = ⟨0, 0, 0, 0, 0, 0⟩ ∧
    anomalyDetector.calculateStats [] = ⟨0, 0, 0, 0⟩ := by
  have hlen : ¬ values.length = 0 := by
    simpa [List.length_eq_zero] using h
  have hsortedne : values.insertionSort (· ≤ ·) ≠ [] := by
    intro hc
    apply h
    have := (List.perm_insertionSort (· ≤ ·) values).length_eq
    rw [hc] at this
    simpa [List.length_eq_zero] using this.symm
  have hsorted : (values.insertionSort (· ≤ ·)).Sorted (· ≤ ·) :=
    List.sorted_insertionSort (· ≤ ·) values
  have hmm : ∀ x : ℝ, x ∈ values.insertionSort (· ≤ ·) ↔ x ∈ values :=
    fun _ => (List.perm_insertionSort (· ≤ ·) values).mem_iff
  refine ⟨?_, ?_, rfl, rfl⟩
  · simp only [anomaliesRoute.calculateStats, if_neg hlen]
    refine ⟨trivial, trivial, Real.sqrt_nonneg _, ?_, ?_, ?_, ?_⟩
    · exact (hmm _).mp (sorted_getD_zero hsorted hsortedne).1
    · intro x hx
      exact (sorted_getD_zero hsorted hsortedne).2 x ((hmm x).mpr hx)
    · exact (hmm _).mp (sorted_getD_last hsorted hsortedne).1
    · intro x hx
      exact (sorted_getD_last hsorted hsortedne).2 x ((hmm x).mpr hx)
  · simp only [anomalyDetector.calculateStats, if_neg hlen]
    obtain ⟨m, hm⟩ : ∃ m, values.min? = some m := by
      cases hc : values.min? with
      | none => exact absurd (List.min?_eq_none_iff.mp hc) h
      | some m => exact ⟨m, rfl⟩
    obtain ⟨M, hM⟩ : ∃ M, values.max? = some M := by
      cases hc : values.max? with
      | none => exact absurd (List.max?_eq_none_iff.mp hc) h
      | some M => exact ⟨M, rfl⟩
    refine ⟨trivial, trivial, Real.sqrt_nonneg _, ?_, ?_, ?_, ?_⟩
    · simpa [hm] using List.min?_mem (fun a b => min_choice a b) hm
    · intro x hx
      simpa [hm] using
        (List.le_min?_iff (fun _ _ _ => le_min_iff) hm).mp le_rfl x hx
    · simpa [hM] using List.max?_mem (fun a b => max_choice a b) hM
    · intro x hx
      simpa [hM] using
        (List.max?_le_iff (fun _ _ _ => max_le_iff) hM).mp le_rfl x hx

/-- Witness for C2 at the concrete sample list `[1, 3]`
(`mean = 2`, population `std = 1`, `min = 1`, `max = 3`). -/
theorem stats_correct_witness :
    (anomaliesRoute.calculateStats [1, 3]).mean = ([1, 3] : List ℝ).sum / ([1, 3] : List ℝ).length ∧
      0 ≤ (anomaliesRoute.calculateStats [1, 3]).std ∧
      (anomaliesRoute.calculateStats [1, 3]).min ∈ ([1, 3] : List ℝ) ∧
      (anomalyDetector.calculateStats [1, 3]).max ∈ ([1, 3] : List ℝ) := by
  have hs := stats_correct [1, 3] (by simp)
  exact ⟨hs.1.1, hs.1.2.2.1, hs.1.2.2.2.1, hs.2.1.2.2.2.2.2.1⟩

/-! Section C10: the live path treats the exact value 0 as absent data -/

/-- C10: in `checkRealtimeAnomaly`, a cached mean of exactly `0` for a
metric suppresses that metric's z-score (`realtime`) anomalies regardless
of the incoming value (no sample count is consulted — the cache stores
none), and a most recent cached reading whose value for a metric is
exactly `0` suppresses that metric's rate-of-change comparison. -/
theorem zero_treated_as_absent (cache : anomalyDetector.StatsCache) (now : ℤ)
    (temperature humidity : ℝ) :
    (∀ s, cache.temperature = some s → s.mean = 0 →
      ∀ a ∈ anomalyDetector.checkRealtimeAnomaly cache now temperature humidity,
        ¬(a.metric = Metric.temperature ∧
          a.detectionMethod = DetectionMethod.realtime)) ∧
    (∀ s, cache.humidity = some s → s.mean = 0 →
      ∀ a ∈ anomalyDetector.checkRealtimeAnomaly cache now temperature humidity,
        ¬(a.metric = Metric.humidity ∧
          a.detectionMethod = DetectionMethod.realtime)) ∧
    (∀ lastReading rest, cache.recentReadings = lastReading :: rest →
      lastReading.temperature = some 0 →
      ∀ a ∈ anomalyDetector.checkRealtimeAnomaly cache now temperature humidity,
        ¬(a.metric = Metric.temperature ∧
          a.detectionMethod = DetectionMethod.rate_of_change)) ∧
    (∀ lastReading rest, cache.recentReadings = lastReading :: rest →
      lastReading.humidity = some 0 →
      ∀ a ∈ anomalyDetector.checkRealtimeAnomaly cache now temperature humidity,
        ¬(a.metric = Metric.humidity ∧
          a.detectionMethod = DetectionMethod.rate_of_change)) := by
  refine ⟨?_, ?_, ?_, ?_⟩
  · intro s hc hm a ha hcon
    rw [anomalyDetector.checkRealtimeAnomaly,
      realtimeTempZ_of_mean_zero hc hm] at ha
    simp only [List.nil_append, List.mem_append] at ha
    rcases ha with (ha | ha) | ha
    · exact absurd hcon.1 (by simp [(mem_realtimeHumZ ha).1])
    · exact absurd hcon.2 (by simp [(mem_realtimeRateT ha).2])
    · exact absurd hcon.1 (by simp [(mem_realtimeRateH ha).1])
  · intro s hc hm a ha hcon
    rw [anomalyDetector.checkRealtimeAnomaly,
      realtimeHumZ_of_mean_zero hc hm] at ha
    simp only [List.append_nil, List.mem_append] at ha
    rcases ha with (ha | ha) | ha
    · exact absurd hcon.1 (by simp [(mem_realtimeTempZ ha).1])
    · exact absurd hcon.1 (by simp [(mem_realtimeRateT ha).1])
    · exact absurd hcon.2 (by simp [(mem_realtimeRateH ha).2])
  · intro lastReading rest hr hz a ha hcon
    rw [anomalyDetector.checkRealtimeAnomaly,
      realtimeRateT_of_zero hr hz] at ha
    simp only [List.append_nil, List.mem_append] at ha
    rcases ha with (ha | ha) | ha
    · exact absurd hcon.2 (by simp [(mem_realtimeTempZ ha).2])
    · exact absurd hcon.2 (by simp [(mem_realtimeHumZ ha).2])
    · exact absurd hcon.1 (by simp [(mem_realtimeRateH ha).1])
  · intro lastReading rest hr hz a ha hcon
    rw [anomalyDetector.checkRealtimeAnomaly,
      realtimeRateH_of_zero hr hz] at ha
    simp only [List.append_nil, List.mem_append] at ha
    rcases ha with (ha | ha) | ha
    · exact absurd hcon.2 (by simp [(mem_realtimeTempZ ha).2])
    · exact absurd hcon.2 (by simp [(mem_realtimeHumZ ha).2])
    · exact absurd hcon.1 (by simp [(mem_realtimeRateT ha).1])

/-- Witness for C10: a cache whose temperature mean is exactly `0`
(humidity baseline `mean = 50`, `std = 1`); the incoming reading
`(100, 100)` produces only the humidity anomaly, and applying the theorem
to it shows it is not a temperature/`realtime` anomaly. -/
theorem zero_treated_as_absent_witness :
    ¬((⟨0, 0, Metric.humidity, 100, (46, 54), 25, DetectionMethod.realtime,
        Severity.high⟩ : Anomaly).metric = Metric.temperature ∧
      (⟨0, 0, Metric.humidity, 100, (46, 54), 25, DetectionMethod.realtime,
        Severity.high⟩ : Anomaly).detectionMethod = DetectionMethod.realtime) := by
  have hmax : max (1 : ℝ) 2 = 2 := max_eq_right (by norm_num)
  have heval : anomalyDetector.checkRealtimeAnomaly
      ⟨some ⟨0, 1, 0, 0⟩, some ⟨50, 1, 50, 50⟩, []⟩ 0 100 100 =
      [⟨0, 0, Metric.humidity, 100, (46, 54), 25, DetectionMethod.realtime,
        Severity.high⟩] := by
    rw [anomalyDetector.checkRealtimeAnomaly, realtimeTempZ_of_mean_zero rfl rfl]
    norm_num [anomalyDetector.realtimeHumZ, anomalyDetector.realtimeRateT,
      anomalyDetector.realtimeRateH, MIN_STD_HUMIDITY, ZSCORE_THRESHOLD,
      hmax, round2, round_eq, lt_abs]
  refine (zero_treated_as_absent ⟨some ⟨0, 1, 0, 0⟩, some ⟨50, 1, 50, 50⟩, []⟩
    0 100 100).1 ⟨0, 1, 0, 0⟩ rfl rfl _ ?_
  rw [heval]
  exact List.mem_singleton.mpr rfl

/-! Section C8: collaborator-failure recovery -/

/-- C8: a failed reading-source fetch leaves the previous cache snapshot in
place unchanged (`refreshStatsCache` returns early), and a failed
anomaly-log insert is surfaced only as a warning: the detection call
returns exactly its anomaly list whatever the sink does, a warning appears
only when the sink reported an error, and a sink error on a non-empty
anomaly list is reported as a warning. -/
theorem collaborator_failure_recovery :
    (∀ prev : anomalyDetector.StatsCache,
      anomalyDetector.refreshStatsCache prev none = prev) ∧
    (∀ (cache : anomalyDetector.StatsCache) (now : ℤ) (t h : ℝ)
        (insertError : Option String),
      (anomalyDetector.checkRealtimeAnomalyRun cache now t h insertError).1 =
        anomalyDetector.checkRealtimeAnomaly cache now t h ∧
      ((anomalyDetector.checkRealtimeAnomalyRun cache now t h insertError).2 ≠
          none → insertError ≠ none)) ∧
    (∀ (cache : anomalyDetector.StatsCache) (now : ℤ) (t h : ℝ)
        (msg : String),
      anomalyDetector.checkRealtimeAnomaly cache now t h ≠ [] →
      (anomalyDetector.checkRealtimeAnomalyRun cache now t h (some msg)).2 =
        some msg) := by
  refine ⟨fun prev => rfl, fun cache now t h e => ⟨?_, ?_⟩, ?_⟩
  · rw [anomalyDetector.checkRealtimeAnomalyRun]
    split_ifs <;> rfl
  · rw [anomalyDetector.checkRealtimeAnomalyRun]
    split_ifs
    · cases e <;> simp [anomalyDetector.logAnomalies]
    · simp
  · intro cache now t h msg hne
    rw [anomalyDetector.checkRealtimeAnomalyRun]
    rw [if_pos (List.length_pos.mpr hne)]
    rfl

/-- Witness for C8 at the empty cache and a failing sink. -/
theorem collaborator_failure_recovery_witness :
    anomalyDetector.refreshStatsCache ⟨none, none, []⟩ none =
      (⟨none, none, []⟩ : anomalyDetector.StatsCache) ∧
    (anomalyDetector.checkRealtimeAnomalyRun ⟨none, none, []⟩ 0 1 1
        (some "sink failed")).1 =
      anomalyDetector.checkRealtimeAnomaly ⟨none, none, []⟩ 0 1 1 :=
  ⟨collaborator_failure_recovery.1 ⟨none, none, []⟩,
    (collaborator_failure_recovery.2.1 ⟨none, none, []⟩ 0 1 1
      (some "sink failed")).1⟩

/-! Section C4: rate-of-change classification -/

/-- Counterexample to C4 as stated: the pair `24.0 → 28.0` has
`delta = 4.0 = 2 * threshold`, and since the high tier requires
`delta > 2 * threshold` *strictly*, the code grades it `medium`, not
`high` as the claim asserts; moreover the batch detector rounds the
`expectedRange` endpoints to 2 decimals, so for `previous = 0.005` the
range is `(-1.99, 2.01)`, not `(previous - 2, previous + 2)`. -/
theorem rate_claim_counterexample :
    anomaliesRoute.detectRateAnomalies
        [⟨1, some 24, none, 1⟩, ⟨2, some 28, none, 2⟩] Metric.temperature =
      [⟨2, 2, Metric.temperature, 28, (22, 26), 4, DetectionMethod.rate_of_change,
        Severity.medium⟩] ∧
    Severity.medium ≠ Severity.high ∧
    anomaliesRoute.detectRateAnomalies
        [⟨1, some 0.005, none, 1⟩, ⟨2, some 3, none, 2⟩] Metric.temperature =
      [⟨2, 2, Metric.temperature, 3, (-1.99, 2.01), 3,
        DetectionMethod.rate_of_change, Severity.low⟩] ∧
    ((-1.99 : ℝ), (2.01 : ℝ)) ≠ ((0.005 : ℝ) - 2, (0.005 : ℝ) + 2) := by
  refine ⟨?_, by simp, ?_, by norm_num [Prod.ext_iff]⟩
  · rw [anomaliesRoute.detectRateAnomalies]
    norm_num [anomaliesRoute.rateLoop, anomaliesRoute.rateBody,
      SensorReading.metricValue, TEMP_RATE_THRESHOLD, round2, round_eq,
      lt_abs, abs_le]
  · have habs : |(599 : ℝ) / 200| = 599 / 200 := by norm_num
    rw [anomaliesRoute.detectRateAnomalies]
    norm_num [anomaliesRoute.rateLoop, anomaliesRoute.rateBody,
      SensorReading.metricValue, TEMP_RATE_THRESHOLD, round2, round_eq,
      lt_abs, abs_le, habs]

/-- C4 amended: for a pair (`prev`, `v`) of present values with the
per-metric threshold (2.0 temperature, 5.0 humidity), an anomaly is
emitted iff `delta = |v - prev| > threshold`; severity is `high` iff
`delta > 2*threshold` (so `24 → 28` with `delta = 4.0` is `medium`, not
`high`), `medium` iff `1.5*threshold < delta ≤ 2*threshold`, `low` iff
`threshold < delta ≤ 1.5*threshold`; `deviation = round2 delta`; the
`expectedRange` is `[prev - threshold, prev + threshold]` rounded to 2
decimals in the batch path and exact in the live path; `24 → 25.5`
(`delta = 1.5`) is no anomaly. -/
theorem rate_classification_amended (metric : Metric) (threshold prev v : ℝ)
    (reading : SensorReading)
    (hth : threshold =
      if metric = Metric.temperature then TEMP_RATE_THRESHOLD
      else HUMIDITY_RATE_THRESHOLD)
    (cache : anomalyDetector.StatsCache) (now : ℤ) (t p : ℝ)
    (lastReading : SensorReading) (rest : List SensorReading)
    (hr : cache.recentReadings = lastReading :: rest)
    (hp : lastReading.temperature = some p) (hpz : p ≠ 0) :
    ((anomaliesRoute.rateBody metric threshold prev reading v).isSome ↔
      |v - prev| > threshold) ∧
    (∀ a, anomaliesRoute.rateBody metric threshold prev reading v = some a →
      a.deviation = round2 |v - prev| ∧
      a.expectedRange = (round2 (prev - threshold), round2 (prev + threshold)) ∧
      (a.severity = Severity.high ↔ |v - prev| > 2 * threshold) ∧
      (a.severity = Severity.medium ↔
        1.5 * threshold < |v - prev| ∧ |v - prev| ≤ 2 * threshold) ∧
      (a.severity = Severity.low ↔
        threshold < |v - prev| ∧ |v - prev| ≤ 1.5 * threshold)) ∧
    ((anomalyDetector.realtimeRateT cache now t ≠ [] ↔
      |t - p| > TEMP_RATE_THRESHOLD) ∧
      (∀ a ∈ anomalyDetector.realtimeRateT cache now t,
        a.deviation = round2 |t - p| ∧
        a.expectedRange = (p - TEMP_RATE_THRESHOLD, p + TEMP_RATE_THRESHOLD) ∧
        (a.severity = Severity.high ↔ |t - p| > 2 * TEMP_RATE_THRESHOLD))) ∧
    anomaliesRoute.rateBody Metric.temperature TEMP_RATE_THRESHOLD 24
        ⟨2, some 28, none, 2⟩ 28 =
      some ⟨2, 2, Metric.temperature, 28, (22, 26), 4,
        DetectionMethod.rate_of_change, Severity.medium⟩ ∧
    anomaliesRoute.rateBody Metric.temperature TEMP_RATE_THRESHOLD 24
        ⟨2, some 25.5, none, 2⟩ 25.5 = none := by
  have hpos : 0 < threshold := by
    rw [hth]
    split_ifs <;> norm_num [TEMP_RATE_THRESHOLD, HUMIDITY_RATE_THRESHOLD]
  refine ⟨?_, ?_, ⟨?_, ?_⟩, ?_, ?_⟩
  · simp only [anomaliesRoute.rateBody]
    split_ifs with h <;> simp [h]
  · intro a ha
    simp only [anomaliesRoute.rateBody] at ha
    split_ifs at ha with h h2 h15
    · rcases Option.some_injective _ ha with rfl
      exact ⟨rfl, rfl, iff_of_true rfl (by linarith),
        iff_of_false (by simp) (fun hc => absurd hc.2 (by push_neg; linarith)),
        iff_of_false (by simp) (fun hc => absurd hc.2 (by push_neg; linarith))⟩
    · rcases Option.some_injective _ ha with rfl
      exact ⟨rfl, rfl, iff_of_false (by simp) (fun hc => h2 (by linarith)),
        iff_of_true rfl ⟨by linarith, by push_neg at h2; linarith⟩,
        iff_of_false (by simp) (fun hc => absurd hc.2 (by push_neg; linarith))⟩
    · rcases Option.some_injective _ ha with rfl
      exact ⟨rfl, rfl, iff_of_false (by simp) (fun hc => h2 (by linarith)),
        iff_of_false (by simp) (fun hc => absurd hc.1 (by push_neg at h15; push_neg; linarith)),
        iff_of_true rfl ⟨h, by push_neg at h15; linarith⟩⟩
  · simp only [anomalyDetector.realtimeRateT, hr, hp]
    rw [if_pos hpz]
    split_ifs with hgt <;>
      first
        | exact iff_of_true (by simp) hgt
        | exact iff_of_false (by simp) hgt
  · intro a ha
    simp only [anomalyDetector.realtimeRateT, hr, hp] at ha
    rw [if_pos hpz] at ha
    split_ifs at ha with hgt h2 h15
    · rcases List.mem_singleton.mp ha with rfl
      exact ⟨rfl, rfl, iff_of_true rfl (by linarith)⟩
    · rcases List.mem_singleton.mp ha with rfl
      exact ⟨rfl, rfl, iff_of_false (by simp) (fun hc => h2 (by linarith))⟩
    · rcases List.mem_singleton.mp ha with rfl
      exact ⟨rfl, rfl, iff_of_false (by simp) (fun hc => h2 (by linarith))⟩
    · simp at ha
  · rw [anomaliesRoute.rateBody]
    norm_num [TEMP_RATE_THRESHOLD, round2, round_eq, lt_abs]
  · rw [anomaliesRoute.rateBody]
    norm_num [TEMP_RATE_THRESHOLD, abs_le]

/-- Witness for C4 amended at the concrete pair `24 → 28` (temperature
threshold `2.0`) and a cache whose most recent temperature is `24`. -/
theorem rate_classification_amended_witness :
    ((anomaliesRoute.rateBody Metric.temperature TEMP_RATE_THRESHOLD 24
        ⟨2, some 28, none, 2⟩ 28).isSome ↔ |(28 : ℝ) - 24| > TEMP_RATE_THRESHOLD) ∧
    (anomalyDetector.realtimeRateT ⟨none, none, [⟨1, some 24, none, 0⟩]⟩ 0 28 ≠ [] ↔
      |(28 : ℝ) - 24| > TEMP_RATE_THRESHOLD) := by
  have hc := rate_classification_amended Metric.temperature TEMP_RATE_THRESHOLD
    24 28 ⟨2, some 28, none, 2⟩ (by simp)
    ⟨none, none, [⟨1, some 24, none, 0⟩]⟩ 0 28 24 ⟨1, some 24, none, 0⟩ []
    rfl rfl (by norm_num)
  exact ⟨hc.1, hc.2.2.1.1⟩

/-! Section C5: rate-of-change precondition over present values -/

/-- C5: rate detection compares exactly the consecutive pairs of the
metric's present-value subsequence (a null value is skipped — it is not
used as a `previous` and the following present value is compared with the
last present value before the gap); the values entering the metric's
statistics window are the present values only; under distinct reading
ids, the first reading of a window is never rate-flagged; concretely, a
`temperature=null, humidity=60` reading between two temperature readings
is skipped by the temperature comparison while still producing the
humidity rate anomaly. -/
theorem rate_pairs_present (data : List SensorReading) (metric : Metric)
    (r : SensorReading) (rest : List SensorReading) (hdata : data = r :: rest)
    (hids : (data.map (fun q => q.id)).Nodup) :
    (anomaliesRoute.detectRateAnomalies data metric =
      ratePairsSpec metric
        (if metric = Metric.temperature then TEMP_RATE_THRESHOLD
          else HUMIDITY_RATE_THRESHOLD) (presentSeq data metric)) ∧
    ((presentSeq data metric).map (fun x => x.2) =
      data.filterMap (fun q => q.metricValue metric)) ∧
    (∀ a ∈ anomaliesRoute.detectRateAnomalies data metric, a.id ≠ r.id) ∧
    anomaliesRoute.detectRateAnomalies
        [⟨1, some 24, some 50, 1⟩, ⟨2, none, some 60, 2⟩,
          ⟨3, some 27, some 55, 3⟩] Metric.temperature =
      [⟨3, 3, Metric.temperature, 27, (22, 26), 3,
        DetectionMethod.rate_of_change, Severity.low⟩] ∧
    anomaliesRoute.detectRateAnomalies
        [⟨1, some 24, some 50, 1⟩, ⟨2, none, some 60, 2⟩,
          ⟨3, some 27, some 55, 3⟩] Metric.humidity =
      [⟨2, 2, Metric.humidity, 60, (45, 55), 10,
        DetectionMethod.rate_of_change, Severity.medium⟩] := by
  subst hdata
  refine ⟨?_, presentSeq_map_snd _ _, ?_, ?_, ?_⟩
  · rw [anomaliesRoute.detectRateAnomalies]
    exact (rateLoop_spec metric _ (r :: rest)).1
  · intro a ha heq
    rw [anomaliesRoute.detectRateAnomalies,
      (rateLoop_spec metric _ (r :: rest)).1] at ha
    have hidmem := ratePairsSpec_id_mem ha
    have hrest : a.id ∈ rest.map (fun q => q.id) := by
      cases hv : r.metricValue metric with
      | some v =>
        rw [show presentSeq (r :: rest) metric =
            (r, v) :: presentSeq rest metric from by
          simp [presentSeq, List.filterMap_cons, hv]] at hidmem
        simp only [List.tail_cons] at hidmem
        exact (presentSeq_ids_sublist rest metric).subset hidmem
      | none =>
        rw [show presentSeq (r :: rest) metric = presentSeq rest metric from by
          simp [presentSeq, List.filterMap_cons, hv]] at hidmem
        have h1 : a.id ∈ (presentSeq rest metric).map (fun x => x.1.id) :=
          ((List.tail_sublist _).map _).subset hidmem
        exact (presentSeq_ids_sublist rest metric).subset h1
    rw [List.map_cons] at hids
    exact (List.nodup_cons.mp hids).1 (heq ▸ hrest)
  · rw [anomaliesRoute.detectRateAnomalies]
    norm_num [anomaliesRoute.rateLoop, anomaliesRoute.rateBody,
      SensorReading.metricValue, TEMP_RATE_THRESHOLD, round2, round_eq,
      lt_abs, abs_le]
  · rw [anomaliesRoute.detectRateAnomalies,
      if_neg (show ¬(Metric.humidity = Metric.temperature) by simp)]
    norm_num [anomaliesRoute.rateLoop, anomaliesRoute.rateBody,
      SensorReading.metricValue, HUMIDITY_RATE_THRESHOLD, round2, round_eq,
      lt_abs, abs_le]

/-- Witness for C5 at the concrete three-reading window with a null
temperature in the middle. -/
theorem rate_pairs_present_witness :
    anomaliesRoute.detectRateAnomalies
        [⟨1, some 24, some 50, 1⟩, ⟨2, none, some 60, 2⟩,
          ⟨3, some 27, some 55, 3⟩] Metric.temperature =
      [⟨3, 3, Metric.temperature, 27, (22, 26), 3,
        DetectionMethod.rate_of_change, Severity.low⟩] :=
  (rate_pairs_present
    [⟨1, some 24, some 50, 1⟩, ⟨2, none, some 60, 2⟩, ⟨3, some 27, some 55, 3⟩]
    Metric.temperature ⟨1, some 24, some 50, 1⟩
    [⟨2, none, some 60, 2⟩, ⟨3, some 27, some 55, 3⟩] rfl
    (by simp)).2.2.2.1

/-! Section C3: z-score abstention and division safety -/

/-- Counterexample to C3 as stated: the *live* detection path performs no
sample-count check.  A cache refreshed from a single reading (temperature
window of one sample, fewer than the minimum of 10, with standard
deviation 0) still emits a z-score (`realtime`) anomaly for the incoming
value 30, because the live path substitutes the effective-std floor 0.5
and only tests `mean !== 0`. -/
theorem zscore_abstention_counterexample :
    (([⟨1, some 24, none, 1⟩] : List SensorReading).filterMap
        (fun r => r.temperature)).length < 10 ∧
    anomalyDetector.checkRealtimeAnomaly
        (anomalyDetector.refreshStatsCache ⟨none, none, []⟩
          (some [⟨1, some 24, none, 1⟩])) 2 30 50 =
      [⟨0, 2, Metric.temperature, 30, (23, 25), 12, DetectionMethod.realtime,
          Severity.high⟩,
        ⟨0, 2, Metric.temperature, 30, (22, 26), 6,
          DetectionMethod.rate_of_change, Severity.high⟩] := by
  refine ⟨by norm_num [List.filterMap_cons], ?_⟩
  have hcache : anomalyDetector.refreshStatsCache ⟨none, none, []⟩
      (some [⟨1, some 24, none, 1⟩]) =
      ⟨some ⟨24, 0, 24, 24⟩, some ⟨0, 0, 0, 0⟩, [⟨1, some 24, none, 1⟩]⟩ := by
    rw [anomalyDetector.refreshStatsCache]
    norm_num [List.filterMap_cons, List.filter_cons, decide_eq_true_eq,
      anomalyDetector.calculateStats, List.min?, List.max?, List.take]
  rw [hcache, anomalyDetector.checkRealtimeAnomaly]
  have hmax : max (0 : ℝ) MIN_STD_TEMP = 0.5 := by
    rw [MIN_STD_TEMP]
    exact max_eq_right (by norm_num)
  norm_num [anomalyDetector.realtimeTempZ, anomalyDetector.realtimeHumZ,
    anomalyDetector.realtimeRateT, anomalyDetector.realtimeRateH,
    ZSCORE_THRESHOLD, TEMP_RATE_THRESHOLD, hmax, round2, round_eq, lt_abs]

/-- The cron per-reading push abstains for a metric whose window has fewer
than 10 samples or zero standard deviation. -/
theorem cronBody_abstains (readings : List SensorReading) (metric : Metric)
    (reading : SensorReading) (hr : reading ∈ readings)
    (h : (cronRoute.cronValues readings metric).length < 10 ∨
      cronRoute.cronStd readings metric = 0) :
    cronRoute.cronBody readings metric reading = [] := by
  cases hv : reading.metricValue metric with
  | none => simp [cronRoute.cronBody, hv]
  | some v =>
    rcases h with hn | hstd
    · rcases lt_or_le 0 (cronRoute.cronStd readings metric) with hpos | hnp
      · simp only [cronRoute.cronBody, hv]
        rw [if_pos hpos, if_neg (cron_z_bound readings metric hn hpos v
          (List.mem_filterMap.mpr ⟨reading, hr, hv⟩))]
      · simp only [cronRoute.cronBody, hv]
        rw [if_neg (not_lt.mpr hnp)]
    · simp only [cronRoute.cronBody, hv]
      rw [if_neg (by rw [hstd]; exact lt_irrefl 0)]

/-- C3 amended: the *batch* path abstains (returns no anomalies, hence
never divides) whenever the metric's window has fewer than 10 non-null
samples or zero standard deviation; the *cron* path abstains in both cases
as well — for `std = 0` by its explicit guard, and for fewer than 10
samples because a member of its own window can never exceed z-score 3
(Samuelson's inequality); the *live* path divides by the positive
effective-std floor, so it never divides by zero, but it performs no
sample-count check (see the counterexample). -/
theorem zscore_abstention_amended :
    (∀ (data : List SensorReading) (metric : Metric),
      ((data.filterMap (fun r => r.metricValue metric)).length < 10 ∨
        (anomaliesRoute.calculateStats
          (data.filterMap (fun r => r.metricValue metric))).std = 0) →
      anomaliesRoute.detectZScoreAnomalies data metric = []) ∧
    (∀ (readings : List SensorReading) (metric : Metric),
      ((cronRoute.cronValues readings metric).length < 10 ∨
        cronRoute.cronStd readings metric = 0) →
      ∀ a ∈ cronRoute.cronAnomalies readings, a.metric ≠ metric) ∧
    (∀ s : anomalyDetector.Stats,
      0 < max s.std MIN_STD_TEMP ∧ 0 < max s.std MIN_STD_HUMIDITY) := by
  refine ⟨?_, ?_, ?_⟩
  · intro data metric h
    rw [anomaliesRoute.detectZScoreAnomalies]
    by_cases hl : (data.filterMap (fun r => r.metricValue metric)).length < 10
    · rw [if_pos hl]
    · rcases h with h | h
      · exact absurd h hl
      · rw [if_neg hl, if_pos h]
  · intro readings metric h a ha hmet
    rcases List.mem_flatMap.mp ha with ⟨r, hr, har⟩
    rcases List.mem_append.mp har with ha' | ha'
    · have hm := cronBody_metric ha'
      have hmt : metric = Metric.temperature := by rw [← hmet, hm]
      subst hmt
      rw [cronBody_abstains readings Metric.temperature r hr h] at ha'
      simp at ha'
    · have hm := cronBody_metric ha'
      have hmt : metric = Metric.humidity := by rw [← hmet, hm]
      subst hmt
      rw [cronBody_abstains readings Metric.humidity r hr h] at ha'
      simp at ha'
  · intro s
    constructor
    · exact lt_of_lt_of_le (by rw [MIN_STD_TEMP]; norm_num) (le_max_right _ _)
    · exact lt_of_lt_of_le (by rw [MIN_STD_HUMIDITY]; norm_num) (le_max_right _ _)

/-- Witness for C3 amended: a one-reading window abstains in the batch
path, and the live effective floor is positive on a concrete `Stats`. -/
theorem zscore_abstention_amended_witness :
    anomaliesRoute.detectZScoreAnomalies [⟨1, some 20, none, 1⟩]
        Metric.temperature = [] ∧
    0 < max (⟨1, 1, 1, 1⟩ : anomalyDetector.Stats).std MIN_STD_TEMP :=
  ⟨zscore_abstention_amended.1 [⟨1, some 20, none, 1⟩] Metric.temperature
      (Or.inl (by norm_num [List.filterMap_cons, SensorReading.metricValue])),
    (zscore_abstention_amended.2.2 ⟨1, 1, 1, 1⟩).1⟩

/-! Section C9: the dedup key drops same-method cross-metric anomalies -/

/-- C9: the batch deduplication key is `(id, detectionMethod)` without the
metric, so when a reading is z-score-flagged for both temperature and
humidity, the temperature anomaly (first in concatenation order) survives
deduplication and the humidity one is dropped; likewise for
rate-of-change anomalies on both metrics. -/
theorem same_method_cross_metric_collapse (chron : List SensorReading)
    (hids : (chron.map (fun q => q.id)).Nodup) :
    (∀ aT aH : Anomaly,
      aT ∈ anomaliesRoute.detectZScoreAnomalies chron Metric.temperature →
      aH ∈ anomaliesRoute.detectZScoreAnomalies chron Metric.humidity →
      aH.id = aT.id →
      aT ∈ anomaliesRoute.uniqueAnomalies chron ∧
        aH ∉ anomaliesRoute.uniqueAnomalies chron) ∧
    (∀ bT bH : Anomaly,
      bT ∈ anomaliesRoute.detectRateAnomalies chron Metric.temperature →
      bH ∈ anomaliesRoute.detectRateAnomalies chron Metric.humidity →
      bH.id = bT.id →
      bT ∈ anomaliesRoute.uniqueAnomalies chron ∧
        bH ∉ anomaliesRoute.uniqueAnomalies chron) := by
  have hzTno : ((anomaliesRoute.detectZScoreAnomalies chron
      Metric.temperature).map (fun x => x.id)).Nodup :=
    hids.sublist (detectZScore_ids_sublist chron Metric.temperature)
  have hrTno : ((anomaliesRoute.detectRateAnomalies chron
      Metric.temperature).map (fun x => x.id)).Nodup :=
    hids.sublist (detectRate_ids_sublist chron Metric.temperature)
  have hsymm : Symmetric (fun x y : Anomaly =>
      anomaliesRoute.dedupKey x ≠ anomaliesRoute.dedupKey y) :=
    fun x y h he => h he.symm
  constructor
  · intro aT aH hT hH hid
    obtain ⟨l₁, l₂, hdec⟩ := List.append_of_mem hT
    have hne_l₁ : ∀ b ∈ l₁,
        anomaliesRoute.dedupKey b ≠ anomaliesRoute.dedupKey aT := by
      intro b hb hk
      exact ids_ne_of_decomp hzTno hdec b hb (congrArg Prod.fst hk)
    have hL : anomaliesRoute.allAnomalies chron =
        l₁ ++ aT :: (l₂ ++
          anomaliesRoute.detectZScoreAnomalies chron Metric.humidity ++
          anomaliesRoute.detectRateAnomalies chron Metric.temperature ++
          anomaliesRoute.detectRateAnomalies chron Metric.humidity) := by
      rw [anomaliesRoute.allAnomalies, hdec]
      simp [List.append_assoc]
    have haT : aT ∈ anomaliesRoute.uniqueAnomalies chron := by
      rw [anomaliesRoute.uniqueAnomalies, hL]
      exact dedupLoop_keeps_first (by simp) hne_l₁
    refine ⟨haT, ?_⟩
    intro haH
    rw [anomaliesRoute.uniqueAnomalies] at haT haH
    have hpw := dedupLoop_pairwise [] (anomaliesRoute.allAnomalies chron)
    have hne : aH ≠ aT := by
      intro he
      have h1 := (mem_detectZScore hH).1
      have h2 := (mem_detectZScore hT).1
      rw [he, h2] at h1
      exact absurd h1 (by simp)
    have hkeq : anomaliesRoute.dedupKey aH = anomaliesRoute.dedupKey aT := by
      rw [anomaliesRoute.dedupKey, anomaliesRoute.dedupKey, hid,
        (mem_detectZScore hH).2, (mem_detectZScore hT).2]
    exact hpw.forall hsymm haH haT hne hkeq
  · intro bT bH hT hH hid
    obtain ⟨m₁, m₂, hdec⟩ := List.append_of_mem hT
    have hne_l₁ : ∀ b ∈ anomaliesRoute.detectZScoreAnomalies chron
          Metric.temperature ++
          anomaliesRoute.detectZScoreAnomalies chron Metric.humidity ++ m₁,
        anomaliesRoute.dedupKey b ≠ anomaliesRoute.dedupKey bT := by
      intro b hb hk
      rcases List.mem_append.mp hb with hb | hb
      · have hmeth : b.detectionMethod = DetectionMethod.zscore := by
          rcases List.mem_append.mp hb with hb | hb
          · exact (mem_detectZScore hb).2
          · exact (mem_detectZScore hb).2
        have := congrArg Prod.snd hk
        simp only [anomaliesRoute.dedupKey] at this
        rw [hmeth, (mem_detectRate hT).2] at this
        exact absurd this (by simp)
      · exact ids_ne_of_decomp hrTno hdec b hb (congrArg Prod.fst hk)
    have hL : anomaliesRoute.allAnomalies chron =
        (anomaliesRoute.detectZScoreAnomalies chron Metric.temperature ++
          anomaliesRoute.detectZScoreAnomalies chron Metric.humidity ++ m₁) ++
          bT :: (m₂ ++
            anomaliesRoute.detectRateAnomalies chron Metric.humidity) := by
      rw [anomaliesRoute.allAnomalies, hdec]
      simp [List.append_assoc]
    have hbT : bT ∈ anomaliesRoute.uniqueAnomalies chron := by
      rw [anomaliesRoute.uniqueAnomalies, hL]
      exact dedupLoop_keeps_first (by simp) hne_l₁
    refine ⟨hbT, ?_⟩
    intro hbH
    rw [anomaliesRoute.uniqueAnomalies] at hbT hbH
    have hpw := dedupLoop_pairwise [] (anomaliesRoute.allAnomalies chron)
    have hne : bH ≠ bT := by
      intro he
      have h1 := (mem_detectRate hH).1
      have h2 := (mem_detectRate hT).1
      rw [he, h2] at h1
      exact absurd h1 (by simp)
    have hkeq : anomaliesRoute.dedupKey bH = anomaliesRoute.dedupKey bT := by
      rw [anomaliesRoute.dedupKey, anomaliesRoute.dedupKey, hid,
        (mem_detectRate hH).2, (mem_detectRate hT).2]
    exact hpw.forall hsymm hbH hbT hne hkeq

/-! Section Evaluation of the fixture window -/

/-- The temperature window of the fixture. -/
theorem d17_temp_values :
    d17chron.filterMap (fun r => r.metricValue Metric.temperature) =
      ([24, 24, 24, 24, 24, 24, 24, 24, 24, 24, 24, 24, 24, 24, 24, 24, 41] : List ℝ) := by
  norm_num [d17chron, List.filterMap_cons, SensorReading.metricValue]

/-- The humidity window of the fixture. -/
theorem d17_hum_values :
    d17chron.filterMap (fun r => r.metricValue Metric.humidity) =
      ([50, 50, 50, 50, 50, 50, 50, 50, 50, 50, 50, 50, 50, 50, 50, 50, 84] : List ℝ) := by
  norm_num [d17chron, List.filterMap_cons, SensorReading.metricValue]

set_option maxHeartbeats 1000000 in
/-- Statistics of the fixture's temperature window. -/
theorem d17_temp_stats :
    anomaliesRoute.calculateStats ([24, 24, 24, 24, 24, 24, 24, 24, 24, 24, 24, 24, 24, 24, 24, 24, 41] : List ℝ) =
      ⟨25, 4, 24, 41, 24, 24⟩ := by
  have hsqrt : Real.sqrt (16 : ℝ) = 4 := by
    rw [show (16 : ℝ) = 4 ^ 2 by norm_num]
    exact Real.sqrt_sq (by norm_num)
  rw [anomaliesRoute.calculateStats, if_neg (by norm_num)]
  norm_num [List.insertionSort, List.orderedInsert, List.getD_cons_zero,
    List.getD_cons_succ, hsqrt]

set_option maxHeartbeats 1000000 in
/-- Statistics of the fixture's humidity window. -/
theorem d17_hum_stats :
    anomaliesRoute.calculateStats ([50, 50, 50, 50, 50, 50, 50, 50, 50, 50, 50, 50, 50, 50, 50, 50, 84] : List ℝ) =
      ⟨52, 8, 50, 84, 50, 50⟩ := by
  have hsqrt : Real.sqrt (64 : ℝ) = 8 := by
    rw [show (64 : ℝ) = 8 ^ 2 by norm_num]
    exact Real.sqrt_sq (by norm_num)
  rw [anomaliesRoute.calculateStats, if_neg (by norm_num)]
  norm_num [List.insertionSort, List.orderedInsert, List.getD_cons_zero,
    List.getD_cons_succ, hsqrt]

set_option maxHeartbeats 1000000 in
/-- The batch z-score detector flags exactly reading 17 on temperature. -/
theorem d17_zscore_temp :
    anomaliesRoute.detectZScoreAnomalies d17chron Metric.temperature =
      [d17aTz] := by
  have habs16 : |(16 : ℝ)| = 16 := abs_of_nonneg (by norm_num)
  rw [anomaliesRoute.detectZScoreAnomalies]
  simp only [d17_temp_values]
  rw [if_neg (by norm_num), if_neg (by rw [d17_temp_stats]; norm_num)]
  rw [d17_temp_stats]
  norm_num [d17chron, List.filterMap_cons, anomaliesRoute.zscoreBody,
    SensorReading.metricValue, ZSCORE_THRESHOLD, round2, round_eq,
    habs16, d17aTz]

set_option maxHeartbeats 1000000 in
/-- The batch z-score detector flags exactly reading 17 on humidity. -/
theorem d17_zscore_hum :
    anomaliesRoute.detectZScoreAnomalies d17chron Metric.humidity =
      [d17aHz] := by
  have habs32 : |(32 : ℝ)| = 32 := abs_of_nonneg (by norm_num)
  rw [anomaliesRoute.detectZScoreAnomalies]
  simp only [d17_hum_values]
  rw [if_neg (by norm_num), if_neg (by rw [d17_hum_stats]; norm_num)]
  rw [d17_hum_stats]
  norm_num [d17chron, List.filterMap_cons, anomaliesRoute.zscoreBody,
    SensorReading.metricValue, ZSCORE_THRESHOLD, round2, round_eq,
    habs32, d17aHz]

set_option maxHeartbeats 1000000 in
/-- The batch rate detector flags exactly the 24 → 41 jump. -/
theorem d17_rate_temp :
    anomaliesRoute.detectRateAnomalies d17chron Metric.temperature =
      [d17aTr] := by
  have habs17 : |(17 : ℝ)| = 17 := abs_of_nonneg (by norm_num)
  rw [anomaliesRoute.detectRateAnomalies]
  norm_num [d17chron, anomaliesRoute.rateLoop, anomaliesRoute.rateBody,
    SensorReading.metricValue, TEMP_RATE_THRESHOLD, round2, round_eq,
    habs17, d17aTr]

set_option maxHeartbeats 1000000 in
/-- The batch rate detector flags exactly the 50 → 84 jump. -/
theorem d17_rate_hum :
    anomaliesRoute.detectRateAnomalies d17chron Metric.humidity =
      [d17aHr] := by
  have habs34 : |(34 : ℝ)| = 34 := abs_of_nonneg (by norm_num)
  rw [anomaliesRoute.detectRateAnomalies,
    if_neg (show ¬(Metric.humidity = Metric.temperature) by simp)]
  norm_num [d17chron, anomaliesRoute.rateLoop, anomaliesRoute.rateBody,
    SensorReading.metricValue, HUMIDITY_RATE_THRESHOLD, round2, round_eq,
    habs34, d17aHr]

/-- Deduplication keeps the temperature anomaly of each method and drops
the same-key humidity anomalies. -/
theorem d17_unique :
    anomaliesRoute.dedupLoop [] (anomaliesRoute.allAnomalies d17chron) =
      [d17aTz, d17aTr] := by
  rw [anomaliesRoute.allAnomalies, d17_zscore_temp, d17_zscore_hum,
    d17_rate_temp, d17_rate_hum]
  simp [anomaliesRoute.dedupLoop, anomaliesRoute.dedupKey,
    d17aTz, d17aHz, d17aTr, d17aHr]

/-- The final `GET` response keeps reading 17 only once: the second
deduplication by `(id, timestamp)` drops its rate anomaly. -/
theorem d17_response :
    anomaliesRoute.getResponseAnomalies d17chron.reverse = [d17aTz] := by
  rw [anomaliesRoute.getResponseAnomalies]
  rw [if_neg (by norm_num [d17chron])]
  simp only [List.reverse_reverse]
  rw [d17_unique]
  norm_num [anomaliesRoute.sortByTimestampDesc, List.mergeSort,
    anomaliesRoute.dedupLoop2, anomaliesRoute.dedupKey2,
    d17aTz, d17aTr, List.take]

/-! Section C6: deduplication of batch results -/

/-- Counterexample to C6 as stated: reading 17 of the fixture is flagged
both by z-score and by rate-of-change, yet the batch `GET` response
contains it exactly once, not twice — after the `(id, detectionMethod)`
deduplication, the response is additionally deduplicated by
`(id, timestamp)`, which collapses the two methods of one reading. -/
theorem dedup_claim_counterexample :
    anomaliesRoute.detectZScoreAnomalies d17chron Metric.temperature =
      [d17aTz] ∧
    anomaliesRoute.detectRateAnomalies d17chron Metric.temperature =
      [d17aTr] ∧
    d17aTz.id = d17aTr.id ∧
    d17aTz.detectionMethod ≠ d17aTr.detectionMethod ∧
    anomaliesRoute.getResponseAnomalies d17chron.reverse = [d17aTz] ∧
    (anomaliesRoute.getResponseAnomalies d17chron.reverse).countP
      (fun a => a.id = 17) = 1 := by
  refine ⟨d17_zscore_temp, d17_rate_temp, rfl,
    by simp [d17aTz, d17aTr], d17_response, ?_⟩
  rw [d17_response]
  simp [d17aTz]

/-- C6 amended: the intermediate batch result set (`uniqueAnomalies`, the
set the summary counts are computed from) is deduplicated by
`(readingId, detectionMethod)` — no reading ever appears twice with the
same method, and a dual-method reading appears exactly twice there — but
the final response list is further deduplicated by `(readingId,
timestamp)`, so a dual-method reading appears exactly once in the
returned anomaly list. -/
theorem dedup_key_amended :
    (∀ l : List Anomaly, (anomaliesRoute.dedupLoop [] l).Pairwise
      (fun x y => anomaliesRoute.dedupKey x ≠ anomaliesRoute.dedupKey y)) ∧
    anomaliesRoute.uniqueAnomalies d17chron = [d17aTz, d17aTr] ∧
    (anomaliesRoute.uniqueAnomalies d17chron).countP
      (fun a => a.id = 17) = 2 ∧
    (anomaliesRoute.getResponseAnomalies d17chron.reverse).countP
      (fun a => a.id = 17) = 1 := by
  refine ⟨fun l => dedupLoop_pairwise [] l, ?_, ?_, ?_⟩
  · rw [anomaliesRoute.uniqueAnomalies]
    exact d17_unique
  · rw [anomaliesRoute.uniqueAnomalies, d17_unique]
    simp [d17aTz, d17aTr]
  · rw [d17_response]
    simp [d17aTz]

/-- Witness for C9 at the fixture: the temperature z-score anomaly of
reading 17 survives deduplication, the humidity one is dropped. -/
theorem same_method_cross_metric_collapse_witness :
    d17aTz ∈ anomaliesRoute.uniqueAnomalies d17chron ∧
      d17aHz ∉ anomaliesRoute.uniqueAnomalies d17chron := by
  have hids : (d17chron.map (fun q => q.id)).Nodup := by
    rw [show d17chron.map (fun q => q.id) =
        [1, 2, 3, 4, 5, 6, 7, 8, 9, 10, 11, 12, 13, 14, 15, 16, 17] from by
      norm_num [d17chron]]
    decide
  exact (same_method_cross_metric_collapse d17chron hids).1 d17aTz d17aHz
    (by rw [d17_zscore_temp]; exact List.mem_singleton.mpr rfl)
    (by rw [d17_zscore_hum]; exact List.mem_singleton.mpr rfl)
    rfl

end ArduML
